import Mathlib

/-!
# MyCaffe `memorycol.h`: memory blocks and the handle table

A shallow embedding of `CudaDnnDLL/Cuda Files/memorycol.h`.

* `size_t` is the 64-bit unsigned type of the x64 build: a `Nat` below `2 ^ 64`,
  sums reduced modulo `2 ^ 64` where the source adds in `size_t`.
* `long` handles are `Int`.
* A pointer is an `Option`: `none` is `NULL`.  Device pointers are addresses in a
  flat byte-addressed device memory, host pointers addresses in a flat host memory.
* The CUDA runtime is not part of the repository.  Its answers (the status of
  every call, the address a successful `cudaMalloc` produces) are a parameter
  `Runtime`; every runtime call is recorded in `Machine.calls`, so that "no copy
  was issued" is a statement about that record.
* An object of class `MemoryCollection` lives at an address of a `Heap`, so a
  table may have any table as its peer, itself included.
-/

namespace MyCaffe

/-! ## Integer types -/

/-- Number of slots of a table, `const int MAX_ITEMS = 4096 * 512;`. -/
def MAX_ITEMS : Int := 4096 * 512

/-- Largest value of `size_t`. -/
def SIZE_MAX : Nat := 2 ^ 64 - 1

/-- Conversion of an integer to `size_t`: reduction modulo `2 ^ 64`. -/
def toSizeT (x : Int) : Nat := (x % 2 ^ 64).toNat

/-- Conversion of a `size_t` value to `long long`: the two's complement reading of
its 64 bits. -/
def toLongLong (x : Nat) : Int :=
  if x % 2 ^ 64 < 2 ^ 63 then ((x % 2 ^ 64 : Nat) : Int) else ((x % 2 ^ 64 : Nat) : Int) - 2 ^ 64

/-! ## Status codes -/

/-- Modelled from the spec: `util.h`, which gives the `ERROR_` constants their
numbers, is not among the sources.  The spec names them as error kinds, so each
is a status of its own and none of them is the success value `0`.  A value
returned by a CUDA runtime call is `cuda code`, with `cuda 0` for `cudaSuccess`
and for the literal `return 0;`. -/
inductive Status where
  | cuda (code : Int)
  | ERROR_PARAM_OUT_OF_RANGE
  | ERROR_PARAM_NULL
  | ERROR_MEMORY_OUT
  | ERROR_MEMORY_RANGE_EXCEEDED
  deriving DecidableEq, Repr

/-- The value of `return 0;`. -/
def Status.success : Status := Status.cuda 0

/-- Whether a status is one of the `ERROR_` constants, which the methods return
from their own argument and bounds checks, and not a value that came back from
the CUDA runtime. -/
def Status.isCheckFailure : Status → Bool
  | Status.cuda _ => false
  | _ => true

/-- Modelled from the spec: the error kinds of its section 7, "NullArgument
(required pointer/buffer missing), InvalidArgument (zero/invalid size), OutOfRange
(handle or offset/size outside valid bounds, table full), RangeExceeded
(offset+size arithmetic would overflow the addressable range),
DeviceOutOfMemory/underlying-device-failure". -/
inductive ErrorKind where
  | NullArgument
  | InvalidArgument
  | OutOfRange
  | RangeExceeded
  | DeviceFailure
  deriving DecidableEq, Repr

/-- Modelled from the spec: the error kind a status stands for, `none` for success.
The constants are matched to the kinds by their names: `ERROR_PARAM_OUT_OF_RANGE`
is the OutOfRange that the spec's Resolve returns for a handle outside the valid
range, `ERROR_PARAM_NULL` is NullArgument, `ERROR_MEMORY_RANGE_EXCEEDED` is
RangeExceeded, and `ERROR_MEMORY_OUT` goes with the statuses of the runtime.  No
constant of the source carries the kind InvalidArgument. -/
def Status.kind : Status → Option ErrorKind
  | Status.cuda 0 => none
  | Status.cuda _ => some ErrorKind.DeviceFailure
  | Status.ERROR_PARAM_OUT_OF_RANGE => some ErrorKind.OutOfRange
  | Status.ERROR_PARAM_NULL => some ErrorKind.NullArgument
  | Status.ERROR_MEMORY_OUT => some ErrorKind.DeviceFailure
  | Status.ERROR_MEMORY_RANGE_EXCEEDED => some ErrorKind.RangeExceeded

/-! ## The CUDA runtime -/

/-- One call into the CUDA runtime, with its arguments. -/
inductive CudaCall where
  | malloc (size : Nat)
  | free (ptr : Nat)
  | memset (ptr : Nat) (value : Int) (count : Nat)
  | memcpyHostToDevice (dst : Nat) (src : Nat) (count : Nat)
  | memcpyDeviceToHost (dst : Nat) (src : Nat) (count : Nat)
  | memcpyAsyncHostToDevice (dst : Nat) (src : Nat) (count : Nat) (stream : Nat)
  deriving DecidableEq, Repr

/-- What the runtime answers: `err k` is the status of the call issued when `k`
calls were issued before it (`0` is `cudaSuccess`), `ptr k` the address that call
produces when it is a successful `cudaMalloc`. -/
structure Runtime where
  err : Nat → Int
  ptr : Nat → Nat

/-- Device memory and host memory, byte by address, and the record of the runtime
calls issued so far. -/
structure Machine where
  dev : Nat → Nat
  host : Nat → Nat
  calls : List CudaCall

/-- The `n` bytes that start at address `p` of a memory. -/
def region (mem : Nat → Nat) (p n : Nat) : List Nat :=
  (List.range n).map (fun i => mem (p + i))

/-- The runtime call `cudaMalloc(&ptr, size)`: the error status, or the address of
the new region. -/
def cudaMalloc (rt : Runtime) (m : Machine) (size : Nat) : Except Int Nat × Machine :=
  let k := m.calls.length
  let m1 : Machine := { m with calls := m.calls ++ [CudaCall.malloc size] }
  if rt.err k = 0 then (Except.ok (rt.ptr k), m1) else (Except.error (rt.err k), m1)

/-- The runtime call `cudaFree(ptr)`; its status is never looked at by the source. -/
def cudaFree (m : Machine) (p : Nat) : Machine :=
  { m with calls := m.calls ++ [CudaCall.free p] }

/-- The runtime call `cudaMemset(ptr, value, count)`: on success every byte of
`[p, p + count)` becomes `(unsigned char)value`; a failed call changes nothing. -/
def cudaMemset (rt : Runtime) (m : Machine) (p : Nat) (value : Int) (count : Nat) :
    Int × Machine :=
  let k := m.calls.length
  let calls := m.calls ++ [CudaCall.memset p value count]
  if rt.err k = 0 then
    (0, { m with
          dev := fun a => if p ≤ a ∧ a < p + count then (value % 256).toNat else m.dev a,
          calls := calls })
  else (rt.err k, { m with calls := calls })

/-- The runtime call `cudaMemcpy(dst, src, count, cudaMemcpyHostToDevice)`: on
success host byte `src + i` lands at device address `dst + i` for every
`i < count`; a failed call changes nothing. -/
def cudaMemcpyHostToDevice (rt : Runtime) (m : Machine) (dst src count : Nat) : Int × Machine :=
  let k := m.calls.length
  let calls := m.calls ++ [CudaCall.memcpyHostToDevice dst src count]
  if rt.err k = 0 then
    (0, { m with
          dev := fun a => if dst ≤ a ∧ a < dst + count then m.host (src + (a - dst)) else m.dev a,
          calls := calls })
  else (rt.err k, { m with calls := calls })

/-- The runtime call `cudaMemcpyAsync(dst, src, count, cudaMemcpyHostToDevice, stream)`:
the transfer is only enqueued on the stream, so the call is recorded and device
memory is as before when the call returns. -/
def cudaMemcpyAsyncHostToDevice (rt : Runtime) (m : Machine) (dst src count stream : Nat) :
    Int × Machine :=
  let k := m.calls.length
  (rt.err k,
    { m with calls := m.calls ++ [CudaCall.memcpyAsyncHostToDevice dst src count stream] })

/-- The runtime call `cudaMemcpy(dst, src, count, cudaMemcpyDeviceToHost)`: on
success device byte `src + i` lands at host address `dst + i` for every
`i < count`; a failed call changes nothing. -/
def cudaMemcpyDeviceToHost (rt : Runtime) (m : Machine) (dst src count : Nat) : Int × Machine :=
  let k := m.calls.length
  let calls := m.calls ++ [CudaCall.memcpyDeviceToHost dst src count]
  if rt.err k = 0 then
    (0, { m with
          host := fun a => if dst ≤ a ∧ a < dst + count then m.dev (src + (a - dst)) else m.host a,
          calls := calls })
  else (rt.err k, { m with calls := calls })

/-! ## `class MemoryItem` -/

/-- The fields of `class MemoryItem`. -/
structure MemoryItem where
  m_pData : Option Nat
  m_lSize : Nat
  m_nDeviceID : Int
  m_bOwner : Bool
  m_bHalf : Bool
  deriving DecidableEq, Repr

/-- What a method of `MemoryItem` leaves behind: its return value, the object and
the machine. -/
structure Ret where
  status : Status
  item : MemoryItem
  mach : Machine

namespace MemoryItem

/-- The constructor `MemoryItem()` (lines 33-40). -/
def construct : MyCaffe.MemoryItem :=
  { m_bOwner := true, m_pData := none, m_lSize := 0, m_nDeviceID := -1, m_bHalf := false }

/-- Method `bool IsFree()`. -/
def IsFree (self : MyCaffe.MemoryItem) : Bool :=
  if self.m_pData ≠ none then false else true

/-- Method `void* Data()`. -/
def Data (self : MyCaffe.MemoryItem) : Option Nat := self.m_pData

/-- Method `size_t Size()`. -/
def Size (self : MyCaffe.MemoryItem) : Nat := self.m_lSize

/-- Method `int DeviceID()`. -/
def DeviceID (self : MyCaffe.MemoryItem) : Int := self.m_nDeviceID

/-- Method `bool IsHalf()`. -/
def IsHalf (self : MyCaffe.MemoryItem) : Bool := self.m_bHalf

/-- Modelled from the spec: `long MemoryItem::Free()` is declared in `memorycol.h`
and its body is not among the sources.  It follows the spec's Release:
"Idempotent: releasing a free block is a no-op success.  If owned, releases the
underlying region; in all cases resets size to 0, pointer to empty, owner flag to
true (ready for reuse), device id to unset".  The precision tag is not mentioned
and stays. -/
def Free (self : MyCaffe.MemoryItem) (m : Machine) : Ret :=
  match self.m_pData with
  | none => { status := Status.success, item := self, mach := m }
  | some p =>
    { status := Status.success,
      item := { m_pData := none, m_lSize := 0, m_nDeviceID := -1, m_bOwner := true,
                m_bHalf := self.m_bHalf },
      mach := if self.m_bOwner then cudaFree m p else m }

/-- Method `long Allocate(int nDeviceID, bool bHalf, size_t lSize, void* pSrc, cudaStream_t pStream)`,
the fresh allocation (lines 75-107). -/
def Allocate (rt : Runtime) (self : MyCaffe.MemoryItem) (m : Machine) (nDeviceID : Int)
    (bHalf : Bool) (lSize : Nat) (pSrc : Option Nat) (pStream : Option Nat) : Ret :=
  if lSize = 0 then
    { status := Status.ERROR_PARAM_OUT_OF_RANGE, item := self, mach := m }
  else
    let r0 := Free self m
    match cudaMalloc rt r0.mach lSize with
    | (Except.error lErr, m1) => { status := Status.cuda lErr, item := r0.item, mach := m1 }
    | (Except.ok p, m1) =>
      let r1 := cudaMemset rt m1 p 0 lSize
      if r1.1 ≠ 0 then
        { status := Status.cuda r1.1, item := { r0.item with m_pData := none },
          mach := cudaFree r1.2 p }
      else
        let it : MyCaffe.MemoryItem :=
          { m_pData := some p, m_nDeviceID := nDeviceID, m_lSize := lSize, m_bOwner := true,
            m_bHalf := bHalf }
        match pSrc with
        | some src =>
          match pStream with
          | some stream =>
            let r2 := cudaMemcpyAsyncHostToDevice rt r1.2 p src lSize stream
            { status := Status.cuda r2.1, item := it, mach := r2.2 }
          | none =>
            let r2 := cudaMemcpyHostToDevice rt r1.2 p src lSize
            { status := Status.cuda r2.1, item := it, mach := r2.2 }
        | none => { status := Status.success, item := it, mach := r1.2 }

/-- Method `long GetData(size_t lSize, void* pDst)` (lines 125-137). -/
def GetData (rt : Runtime) (self : MyCaffe.MemoryItem) (m : Machine) (lSize : Nat)
    (pDst : Option Nat) : Ret :=
  match pDst with
  | none => { status := Status.ERROR_PARAM_NULL, item := self, mach := m }
  | some dst =>
    match self.m_pData with
    | none => { status := Status.ERROR_MEMORY_OUT, item := self, mach := m }
    | some p =>
      if lSize ≤ 0 ∨ lSize > self.m_lSize then
        { status := Status.ERROR_PARAM_OUT_OF_RANGE, item := self, mach := m }
      else
        let r := cudaMemcpyDeviceToHost rt m dst p lSize
        { status := Status.cuda r.1, item := self, mach := r.2 }

/-- Method `long GetDataAt(size_t lSize, void* pDst, size_t nOffsetInBytes)` (lines 139-160).
The sum is formed in `size_t`, stored in the `long long lSize1`, and converted
back to `size_t` both for the comparison with `SIZE_MAX` and by the cast. -/
def GetDataAt (rt : Runtime) (self : MyCaffe.MemoryItem) (m : Machine) (lSize : Nat)
    (pDst : Option Nat) (nOffsetInBytes : Nat) : Ret :=
  match pDst with
  | none => { status := Status.ERROR_PARAM_NULL, item := self, mach := m }
  | some dst =>
    match self.m_pData with
    | none => { status := Status.ERROR_MEMORY_OUT, item := self, mach := m }
    | some p =>
      if lSize ≤ 0 then
        { status := Status.ERROR_PARAM_OUT_OF_RANGE, item := self, mach := m }
      else
        let lSize1 : Int := toLongLong ((lSize + nOffsetInBytes) % 2 ^ 64)
        if toSizeT lSize1 > SIZE_MAX then
          { status := Status.ERROR_MEMORY_RANGE_EXCEEDED, item := self, mach := m }
        else if toSizeT lSize1 > self.m_lSize then
          { status := Status.ERROR_PARAM_OUT_OF_RANGE, item := self, mach := m }
        else
          let pData := p + nOffsetInBytes
          let r := cudaMemcpyDeviceToHost rt m dst pData lSize
          { status := Status.cuda r.1, item := self, mach := r.2 }

/-- Method `long SetData(size_t lSize, void* pSrc, cudaStream_t pStream)` (lines 162-187).
The status of the zero-fill `cudaMemset` is dropped, as in the source. -/
def SetData (rt : Runtime) (self : MyCaffe.MemoryItem) (m : Machine) (lSize : Nat)
    (pSrc : Option Nat) (pStream : Option Nat) : Ret :=
  match pSrc with
  | none => { status := Status.ERROR_PARAM_NULL, item := self, mach := m }
  | some src =>
    match self.m_pData with
    | none => { status := Status.ERROR_MEMORY_OUT, item := self, mach := m }
    | some p =>
      let lSizeMax := SIZE_MAX
      let lSize := if lSize ≥ lSizeMax - 10 then self.m_lSize else lSize
      if lSize ≤ 0 then
        { status := Status.ERROR_PARAM_OUT_OF_RANGE, item := self, mach := m }
      else if lSize > self.m_lSize then
        { status := Status.ERROR_PARAM_OUT_OF_RANGE, item := self, mach := m }
      else
        let m1 := if lSize < self.m_lSize then (cudaMemset rt m p 0 self.m_lSize).2 else m
        match pStream with
        | some stream =>
          let r := cudaMemcpyAsyncHostToDevice rt m1 p src lSize stream
          { status := Status.cuda r.1, item := self, mach := r.2 }
        | none =>
          let r := cudaMemcpyHostToDevice rt m1 p src lSize
          { status := Status.cuda r.1, item := self, mach := r.2 }

/-- Method `long SetDataAt(size_t lSize, void* pSrc, size_t nOffsetInBytes)` (lines 189-210). -/
def SetDataAt (rt : Runtime) (self : MyCaffe.MemoryItem) (m : Machine) (lSize : Nat)
    (pSrc : Option Nat) (nOffsetInBytes : Nat) : Ret :=
  match pSrc with
  | none => { status := Status.ERROR_PARAM_NULL, item := self, mach := m }
  | some src =>
    match self.m_pData with
    | none => { status := Status.ERROR_MEMORY_OUT, item := self, mach := m }
    | some p =>
      if lSize ≤ 0 then
        { status := Status.ERROR_PARAM_OUT_OF_RANGE, item := self, mach := m }
      else
        let lSize1 : Int := toLongLong ((lSize + nOffsetInBytes) % 2 ^ 64)
        if toSizeT lSize1 > SIZE_MAX then
          { status := Status.ERROR_MEMORY_RANGE_EXCEEDED, item := self, mach := m }
        else if toSizeT lSize1 > self.m_lSize then
          { status := Status.ERROR_PARAM_OUT_OF_RANGE, item := self, mach := m }
        else
          let pData := p + nOffsetInBytes
          let r := cudaMemcpyHostToDevice rt m pData src lSize
          { status := Status.cuda r.1, item := self, mach := r.2 }

/-- Method `long Allocate(int nDeviceID, bool bHalf, void* pData, size_t lSize)`, the
aliasing allocation (lines 109-121); `pData` is a device pointer, `none` for `NULL`. -/
def AllocateAlias (self : MyCaffe.MemoryItem) (m : Machine) (nDeviceID : Int) (bHalf : Bool)
    (pData : Option Nat) (lSize : Nat) : Ret :=
  if lSize = 0 then
    { status := Status.ERROR_PARAM_OUT_OF_RANGE, item := self, mach := m }
  else
    { status := Status.success,
      item := { m_pData := pData, m_nDeviceID := nDeviceID, m_lSize := lSize, m_bOwner := false,
                m_bHalf := bHalf },
      mach := m }

/-- Method `long SetData(int nVal)` (lines 212-226), the fill. -/
def SetDataVal (rt : Runtime) (self : MyCaffe.MemoryItem) (m : Machine) (nVal : Int) : Ret :=
  match self.m_pData with
  | none => { status := Status.ERROR_MEMORY_OUT, item := self, mach := m }
  | some p =>
    if self.m_lSize = 0 then
      { status := Status.ERROR_MEMORY_OUT, item := self, mach := m }
    else
      let r := cudaMemset rt m p nVal self.m_lSize
      if r.1 ≠ 0 then { status := Status.cuda r.1, item := self, mach := r.2 }
      else { status := Status.success, item := self, mach := r.2 }

/-- Method `long Copy(size_t lSize, MemoryItem* pSrc)` (lines 228-234).  `pSrc` is the
host address of the other `MemoryItem` object and `src` the object found there.
Line 233 passes `pSrc` itself, converted to `void*`, as the source of
`SetData(size_t, void*, cudaStream_t)`, with the default `NULL` stream. -/
def Copy (rt : Runtime) (self : MyCaffe.MemoryItem) (m : Machine) (lSize : Nat) (pSrc : Nat)
    (src : MyCaffe.MemoryItem) : Ret :=
  if lSize > src.Size then
    { status := Status.ERROR_PARAM_OUT_OF_RANGE, item := self, mach := m }
  else SetData rt self m lSize (some pSrc) none

/-- The block invariant of the spec: a free block (`IsFree()`) has `Size() == 0`. -/
def Invariant (self : MyCaffe.MemoryItem) : Prop := self.IsFree = true → self.Size = 0

instance (self : MyCaffe.MemoryItem) : Decidable self.Invariant := by
  unfold Invariant
  infer_instance

end MemoryItem

/-! ## `class MemoryCollection` -/

/-- The fields of `class MemoryCollection`; `m_pMemPtrs` is the address of the peer
table in the heap, `m_rgHandles i` the object in slot `i` of the array of
`MAX_ITEMS` items. -/
structure MemoryCollection where
  m_pMemPtrs : Option Nat
  m_rgHandles : Nat → MemoryItem
  m_nLastIdx : Int
  m_lTotalMem : Nat

/-- The tables in memory, by address. -/
abbrev Heap := Nat → MemoryCollection

/-- A value of type `MemoryItem*` of the form `&table.m_rgHandles[index]`. -/
structure ItemPtr where
  table : Nat
  index : Int
  deriving DecidableEq, Repr

/-- Whether the pointer designates an element of the array (`0 <= index < MAX_ITEMS`). -/
def ItemPtr.inBounds (p : ItemPtr) : Bool := decide (0 ≤ p.index ∧ p.index < MAX_ITEMS)

/-- The object a `MemoryItem*` points to; there is none past the end of the array. -/
def Heap.load (heap : Heap) (p : ItemPtr) : Option MemoryItem :=
  if p.inBounds then some ((heap p.table).m_rgHandles p.index.toNat) else none

/-- The heap after the object a `MemoryItem*` points to was replaced. -/
def Heap.store (heap : Heap) (p : ItemPtr) (it : MemoryItem) : Heap :=
  fun t =>
    if t = p.table then
      { heap t with
        m_rgHandles := fun i => if i = p.index.toNat then it else (heap t).m_rgHandles i }
    else heap t

/-- What a method of `MemoryCollection` leaves behind: its return value, the
tables and the machine. -/
structure TableRet where
  status : Status
  heap : Heap
  mach : Machine

namespace MemoryCollection

/-- The constructor `MemoryCollection()` (lines 317-324): the `memset` clears every
byte of every slot, so the slots start with all fields zero. -/
def construct : MemoryCollection :=
  { m_pMemPtrs := none,
    m_rgHandles := fun _ =>
      { m_pData := none, m_lSize := 0, m_nDeviceID := 0, m_bOwner := false, m_bHalf := false },
    m_nLastIdx := 1,
    m_lTotalMem := 0 }

/-- Method `void SetMemoryPointers(MemoryCollection* pMemPtrs)` (lines 294-297). -/
def SetMemoryPointers (self : MemoryCollection) (pMemPtrs : Option Nat) : MemoryCollection :=
  { self with m_pMemPtrs := pMemPtrs }

/-- Method `long GetCount()` (lines 326-329). -/
def GetCount : Int := MAX_ITEMS

/-- Method `unsigned long GetTotalUsed()` (lines 468-471). -/
def GetTotalUsed (self : MemoryCollection) : Nat := self.m_lTotalMem

/-- Method `long GetData(long hHandle, MemoryItem** ppItem)` (lines 331-359), called on
the table at address `self`.  `ppItem` is `none` for `NULL` and otherwise holds
the current value of the variable it points to (`none`: not initialised); the
second component of the result is that variable after the call. -/
def GetData (heap : Heap) (self : Nat) (hHandle : Int) (ppItem : Option (Option ItemPtr)) :
    Status × Option (Option ItemPtr) :=
  if hHandle < 1 ∨ hHandle ≥ MAX_ITEMS * 2 then
    (Status.ERROR_PARAM_OUT_OF_RANGE, ppItem)
  else
    match ppItem with
    | none => (Status.ERROR_PARAM_NULL, ppItem)
    | some _ =>
      if hHandle > MAX_ITEMS then
        match (heap self).m_pMemPtrs with
        | none => (Status.ERROR_PARAM_OUT_OF_RANGE, ppItem)
        | some peer =>
          let r := GetData heap peer (hHandle - MAX_ITEMS) ppItem
          if r.1 ≠ Status.success then (r.1, r.2) else (Status.success, r.2)
      else
        (Status.success, some (some { table := self, index := hHandle }))
termination_by hHandle.toNat
decreasing_by
  simp only [MAX_ITEMS] at *
  omega

/-- The call `pItem->GetDataAt(lSize, pDst, nOffsetInBytes)` through a
`MemoryItem*` variable: there is no defined result (`none`) when the variable was
never initialised or points past the end of the array. -/
def callGetDataAt (rt : Runtime) (heap : Heap) (m : Machine) (pItem : Option ItemPtr)
    (lSize : Nat) (pDst : Option Nat) (nOffsetInBytes : Nat) : Option TableRet :=
  match pItem with
  | none => none
  | some q =>
    match heap.load q with
    | none => none
    | some it =>
      let r := it.GetDataAt rt m lSize pDst nOffsetInBytes
      some { status := r.status, heap := heap.store q r.item, mach := r.mach }

/-- The call `pItem->SetData(lSize, pSrc, pStream)` through a `MemoryItem*` variable. -/
def callSetData (rt : Runtime) (heap : Heap) (m : Machine) (pItem : Option ItemPtr)
    (lSize : Nat) (pSrc : Option Nat) (pStream : Option Nat) : Option TableRet :=
  match pItem with
  | none => none
  | some q =>
    match heap.load q with
    | none => none
    | some it =>
      let r := it.SetData rt m lSize pSrc pStream
      some { status := r.status, heap := heap.store q r.item, mach := r.mach }

/-- The call `pItem->SetDataAt(lSize, pSrc, nOffsetInBytes)` through a `MemoryItem*` variable. -/
def callSetDataAt (rt : Runtime) (heap : Heap) (m : Machine) (pItem : Option ItemPtr)
    (lSize : Nat) (pSrc : Option Nat) (nOffsetInBytes : Nat) : Option TableRet :=
  match pItem with
  | none => none
  | some q =>
    match heap.load q with
    | none => none
    | some it =>
      let r := it.SetDataAt rt m lSize pSrc nOffsetInBytes
      some { status := r.status, heap := heap.store q r.item, mach := r.mach }

/-- Method `long GetDataAt(long hHandle, bool bHalf, size_t lSize, void* pDst, size_t nOffsetInBytes)`
(lines 361-389).  The function-level `pItem` (line 363) starts uninitialised; in
the redirected branch the peer writes the `pItem` declared inside that block
(line 379), which goes out of scope at line 382, and line 388 uses the
function-level one.  `bHalf` is not read.  The result is `none` when the
behaviour is undefined. -/
def GetDataAt (rt : Runtime) (heap : Heap) (self : Nat) (m : Machine) (hHandle : Int)
    (_bHalf : Bool) (lSize : Nat) (pDst : Option Nat) (nOffsetInBytes : Nat) :
    Option TableRet :=
  let pItem : Option ItemPtr := none
  if hHandle < 1 ∨ hHandle ≥ MAX_ITEMS * 2 then
    some { status := Status.ERROR_PARAM_OUT_OF_RANGE, heap := heap, mach := m }
  else if hHandle > MAX_ITEMS then
    match (heap self).m_pMemPtrs with
    | none =>
      some { status := Status.ERROR_PARAM_OUT_OF_RANGE, heap := heap, mach := m }
    | some peer =>
      let pItemInner : Option ItemPtr := none
      let r := GetData heap peer (hHandle - MAX_ITEMS) (some pItemInner)
      if r.1 ≠ Status.success then
        some { status := r.1, heap := heap, mach := m }
      else
        callGetDataAt rt heap m pItem lSize pDst nOffsetInBytes
  else
    let pItem : Option ItemPtr := some { table := self, index := hHandle }
    callGetDataAt rt heap m pItem lSize pDst nOffsetInBytes

/-- Method `long SetData(long hHandle, bool bHalf, size_t lSize, void* pSrc, cudaStream_t pStream)`
(lines 391-420); the two `pItem` variables are as in `GetDataAt` (lines 393 and 409). -/
def SetData (rt : Runtime) (heap : Heap) (self : Nat) (m : Machine) (hHandle : Int)
    (_bHalf : Bool) (lSize : Nat) (pSrc : Option Nat) (pStream : Option Nat) :
    Option TableRet :=
  let pItem : Option ItemPtr := none
  if hHandle < 1 ∨ hHandle ≥ MAX_ITEMS * 2 then
    some { status := Status.ERROR_PARAM_OUT_OF_RANGE, heap := heap, mach := m }
  else if hHandle > MAX_ITEMS then
    match (heap self).m_pMemPtrs with
    | none => some { status := Status.ERROR_PARAM_OUT_OF_RANGE, heap := heap, mach := m }
    | some peer =>
      let pItemInner : Option ItemPtr := none
      let r := GetData heap peer (hHandle - MAX_ITEMS) (some pItemInner)
      if r.1 ≠ Status.success then
        some { status := r.1, heap := heap, mach := m }
      else
        callSetData rt heap m pItem lSize pSrc pStream
  else
    let pItem : Option ItemPtr := some { table := self, index := hHandle }
    callSetData rt heap m pItem lSize pSrc pStream

/-- Method `long SetDataAt(long hHandle, bool bHalf, size_t lSize, void* pSrc, size_t nOffsetInBytes)`
(lines 422-450); the two `pItem` variables are as in `GetDataAt` (lines 424 and 440). -/
def SetDataAt (rt : Runtime) (heap : Heap) (self : Nat) (m : Machine) (hHandle : Int)
    (_bHalf : Bool) (lSize : Nat) (pSrc : Option Nat) (nOffsetInBytes : Nat) :
    Option TableRet :=
  let pItem : Option ItemPtr := none
  if hHandle < 1 ∨ hHandle ≥ MAX_ITEMS * 2 then
    some { status := Status.ERROR_PARAM_OUT_OF_RANGE, heap := heap, mach := m }
  else if hHandle > MAX_ITEMS then
    match (heap self).m_pMemPtrs with
    | none => some { status := Status.ERROR_PARAM_OUT_OF_RANGE, heap := heap, mach := m }
    | some peer =>
      let pItemInner : Option ItemPtr := none
      let r := GetData heap peer (hHandle - MAX_ITEMS) (some pItemInner)
      if r.1 ≠ Status.success then
        some { status := r.1, heap := heap, mach := m }
      else
        callSetDataAt rt heap m pItem lSize pSrc nOffsetInBytes
  else
    let pItem : Option ItemPtr := some { table := self, index := hHandle }
    callSetDataAt rt heap m pItem lSize pSrc nOffsetInBytes

/-- Method `long SetData(MemoryItem* pItem, bool bHalf, size_t lSize, void* pSrc, cudaStream_t pStream)`
(lines 452-458), on the object the pointer designates. -/
def SetDataItem (rt : Runtime) (pItem : MemoryItem) (m : Machine) (bHalf : Bool) (lSize : Nat)
    (pSrc : Option Nat) (pStream : Option Nat) : Ret :=
  if pItem.IsHalf ≠ bHalf then
    { status := Status.ERROR_PARAM_OUT_OF_RANGE, item := pItem, mach := m }
  else pItem.SetData rt m lSize pSrc pStream

/-- Method `long SetDataAt(MemoryItem* pItem, bool bHalf, size_t lSize, void* pSrc, size_t nOffsetInBytes)`
(lines 460-466), on the object the pointer designates. -/
def SetDataAtItem (rt : Runtime) (pItem : MemoryItem) (m : Machine) (bHalf : Bool) (lSize : Nat)
    (pSrc : Option Nat) (nOffsetInBytes : Nat) : Ret :=
  if pItem.IsHalf ≠ bHalf then
    { status := Status.ERROR_PARAM_OUT_OF_RANGE, item := pItem, mach := m }
  else pItem.SetDataAt rt m lSize pSrc nOffsetInBytes

/-- Method `size_t GetCount(size_t lCount)` (lines 277-283); the increment is in `size_t`. -/
def GetCountOf (lCount : Nat) : Nat :=
  if lCount % 2 ≠ 0 then (lCount + 1) % 2 ^ 64 else lCount

/-- Method `long long GetSize(size_t lCount, int nBaseSize)` (lines 285-292).  The count
is converted to `long long` and the product is taken in `long long`; a product
outside its range is kept to its low 64 bits, as the compiled multiplication does. -/
def GetSize (lCount : Nat) (nBaseSize : Int) : Int :=
  let llCount : Int := toLongLong (GetCountOf lCount)
  toLongLong (toSizeT (llCount * nBaseSize))

/-- The method `GetData` (lines 331-359) together with the number of calls
`m_pMemPtrs->GetData(...)` that were made to answer it, the nested ones included. -/
def GetDataTraced (heap : Heap) (self : Nat) (hHandle : Int) (ppItem : Option (Option ItemPtr)) :
    (Status × Option (Option ItemPtr)) × Nat :=
  if hHandle < 1 ∨ hHandle ≥ MAX_ITEMS * 2 then
    ((Status.ERROR_PARAM_OUT_OF_RANGE, ppItem), 0)
  else
    match ppItem with
    | none => ((Status.ERROR_PARAM_NULL, ppItem), 0)
    | some _ =>
      if hHandle > MAX_ITEMS then
        match (heap self).m_pMemPtrs with
        | none => ((Status.ERROR_PARAM_OUT_OF_RANGE, ppItem), 0)
        | some peer =>
          let r := GetDataTraced heap peer (hHandle - MAX_ITEMS) ppItem
          if r.1.1 ≠ Status.success then ((r.1.1, r.1.2), r.2 + 1)
          else ((Status.success, r.1.2), r.2 + 1)
      else
        ((Status.success, some (some { table := self, index := hHandle })), 0)
termination_by hHandle.toNat
decreasing_by
  simp only [MAX_ITEMS] at *
  omega

end MemoryCollection

/-! ## Concrete states used to evaluate the code -/

/-- A runtime whose every call succeeds. -/
def okRuntime : Runtime := { err := fun _ => 0, ptr := fun k => 4096 * (k + 1) }

/-- An allocated block of 16 bytes at device address 1000, tagged as not half precision. -/
def blk16 : MemoryItem :=
  { m_pData := some 1000, m_lSize := 16, m_nDeviceID := 0, m_bOwner := true, m_bHalf := false }

/-- A machine whose device bytes are all 9, whose host byte at address `a` is
`a % 7`, and on which no runtime call was issued yet. -/
def mach0 : Machine := { dev := fun _ => 9, host := fun a => a % 7, calls := [] }

/-- Two tables: the one at address 0 has the one at address 1 as its peer, every
other table has no peer; slot 1 of each table holds `blk16`. -/
def heapAB : Heap := fun t =>
  let tbl : MemoryCollection :=
    { MemoryCollection.construct with
      m_rgHandles := fun i => if i = 1 then blk16 else MemoryCollection.construct.m_rgHandles i }
  if t = 0 then tbl.SetMemoryPointers (some 1) else tbl

/-- A runtime whose fourth call fails with status 700 and whose other calls succeed. -/
def readFailRuntime : Runtime :=
  { err := fun k => if k = 3 then 700 else 0, ptr := fun k => 4096 * (k + 1) }

/-- A runtime whose first call fails with status 700 and whose other calls succeed. -/
def fillFailRuntime : Runtime :=
  { err := fun k => if k = 0 then 700 else 0, ptr := fun k => 4096 * (k + 1) }

/-- An aliased block of `SIZE_MAX` bytes at device address 1000. -/
def blkMax : MemoryItem :=
  { m_pData := some 1000, m_lSize := SIZE_MAX, m_nDeviceID := 0, m_bOwner := false,
    m_bHalf := false }

/-- A runtime whose third call fails with status 700 and whose other calls succeed. -/
def copyFailRuntime : Runtime :=
  { err := fun k => if k = 2 then 700 else 0, ptr := fun k => 4096 * (k + 1) }

/-- An allocated block of 8 bytes at device address 2000. -/
def blk8 : MemoryItem :=
  { m_pData := some 2000, m_lSize := 8, m_nDeviceID := 0, m_bOwner := true, m_bHalf := false }

/-! ## Integer conversions -/

/-- Storing a `size_t` value in a `long long` and converting back gives the value. -/
theorem toSizeT_toLongLong (x : Nat) : toSizeT (toLongLong x) = x % 2 ^ 64 := by
  unfold toSizeT toLongLong
  split <;> omega

/-- No `size_t` value is above `SIZE_MAX`. -/
theorem toSizeT_le_SIZE_MAX (x : Int) : ¬ toSizeT x > SIZE_MAX := by
  unfold toSizeT SIZE_MAX
  omega

/-! ## The runtime calls: status, record and memory -/

/-- The status of a host-to-device copy is the runtime's answer. -/
theorem cudaMemcpyHostToDevice_status (rt : Runtime) (m : Machine) (dst src count : Nat) :
    (cudaMemcpyHostToDevice rt m dst src count).1 = rt.err m.calls.length := by
  unfold cudaMemcpyHostToDevice
  by_cases h : rt.err m.calls.length = 0 <;> simp [h]

/-- A host-to-device copy adds itself to the record of calls. -/
theorem cudaMemcpyHostToDevice_calls (rt : Runtime) (m : Machine) (dst src count : Nat) :
    (cudaMemcpyHostToDevice rt m dst src count).2.calls
      = m.calls ++ [CudaCall.memcpyHostToDevice dst src count] := by
  unfold cudaMemcpyHostToDevice
  by_cases h : rt.err m.calls.length = 0 <;> simp [h]

/-- A host-to-device copy leaves host memory as it was. -/
theorem cudaMemcpyHostToDevice_host (rt : Runtime) (m : Machine) (dst src count : Nat) :
    (cudaMemcpyHostToDevice rt m dst src count).2.host = m.host := by
  unfold cudaMemcpyHostToDevice
  by_cases h : rt.err m.calls.length = 0 <;> simp [h]

/-- Device memory after a host-to-device copy that succeeded. -/
theorem cudaMemcpyHostToDevice_dev (rt : Runtime) (m : Machine) (dst src count : Nat)
    (h : rt.err m.calls.length = 0) :
    (cudaMemcpyHostToDevice rt m dst src count).2.dev
      = fun a => if dst ≤ a ∧ a < dst + count then m.host (src + (a - dst)) else m.dev a := by
  unfold cudaMemcpyHostToDevice
  simp [h]

/-- Device memory after a host-to-device copy that failed. -/
theorem cudaMemcpyHostToDevice_dev_failed (rt : Runtime) (m : Machine) (dst src count : Nat)
    (h : rt.err m.calls.length ≠ 0) :
    (cudaMemcpyHostToDevice rt m dst src count).2.dev = m.dev := by
  unfold cudaMemcpyHostToDevice
  simp [h]

/-- The status of a device-to-host copy is the runtime's answer. -/
theorem cudaMemcpyDeviceToHost_status (rt : Runtime) (m : Machine) (dst src count : Nat) :
    (cudaMemcpyDeviceToHost rt m dst src count).1 = rt.err m.calls.length := by
  unfold cudaMemcpyDeviceToHost
  by_cases h : rt.err m.calls.length = 0 <;> simp [h]

/-- A device-to-host copy adds itself to the record of calls. -/
theorem cudaMemcpyDeviceToHost_calls (rt : Runtime) (m : Machine) (dst src count : Nat) :
    (cudaMemcpyDeviceToHost rt m dst src count).2.calls
      = m.calls ++ [CudaCall.memcpyDeviceToHost dst src count] := by
  unfold cudaMemcpyDeviceToHost
  by_cases h : rt.err m.calls.length = 0 <;> simp [h]

/-- A device-to-host copy leaves device memory as it was. -/
theorem cudaMemcpyDeviceToHost_dev (rt : Runtime) (m : Machine) (dst src count : Nat) :
    (cudaMemcpyDeviceToHost rt m dst src count).2.dev = m.dev := by
  unfold cudaMemcpyDeviceToHost
  by_cases h : rt.err m.calls.length = 0 <;> simp [h]

/-- Host memory after a device-to-host copy that succeeded. -/
theorem cudaMemcpyDeviceToHost_host (rt : Runtime) (m : Machine) (dst src count : Nat)
    (h : rt.err m.calls.length = 0) :
    (cudaMemcpyDeviceToHost rt m dst src count).2.host
      = fun a => if dst ≤ a ∧ a < dst + count then m.dev (src + (a - dst)) else m.host a := by
  unfold cudaMemcpyDeviceToHost
  simp [h]

/-- The status of a `cudaMemset` is the runtime's answer. -/
theorem cudaMemset_status (rt : Runtime) (m : Machine) (p : Nat) (value : Int) (count : Nat) :
    (cudaMemset rt m p value count).1 = rt.err m.calls.length := by
  unfold cudaMemset
  by_cases h : rt.err m.calls.length = 0 <;> simp [h]

/-- A `cudaMemset` adds itself to the record of calls. -/
theorem cudaMemset_calls (rt : Runtime) (m : Machine) (p : Nat) (value : Int) (count : Nat) :
    (cudaMemset rt m p value count).2.calls = m.calls ++ [CudaCall.memset p value count] := by
  unfold cudaMemset
  by_cases h : rt.err m.calls.length = 0 <;> simp [h]

/-- A `cudaMemset` leaves host memory as it was. -/
theorem cudaMemset_host (rt : Runtime) (m : Machine) (p : Nat) (value : Int) (count : Nat) :
    (cudaMemset rt m p value count).2.host = m.host := by
  unfold cudaMemset
  by_cases h : rt.err m.calls.length = 0 <;> simp [h]

/-- Device memory after a `cudaMemset` that succeeded. -/
theorem cudaMemset_dev (rt : Runtime) (m : Machine) (p : Nat) (value : Int) (count : Nat)
    (h : rt.err m.calls.length = 0) :
    (cudaMemset rt m p value count).2.dev
      = fun a => if p ≤ a ∧ a < p + count then (value % 256).toNat else m.dev a := by
  unfold cudaMemset
  simp [h]

/-- The bytes of a region, one by one. -/
theorem region_eq_iff (mem1 mem2 : Nat → Nat) (p q n : Nat) :
    region mem1 p n = region mem2 q n ↔ ∀ i, i < n → mem1 (p + i) = mem2 (q + i) := by
  unfold region
  constructor
  · intro h i hi
    have := congrArg (fun l => l[i]?) h
    simpa [List.getElem?_map, List.getElem?_range hi] using this
  · intro h
    apply List.map_congr_left
    intro i hi
    exact h i (List.mem_range.mp hi)

/-- A region of `n + k` bytes is its first `n` bytes followed by the next `k`. -/
theorem region_split (mem : Nat → Nat) (p n k : Nat) :
    region mem p (n + k) = region mem p n ++ region mem (p + n) k := by
  unfold region
  rw [List.range_add, List.map_append, List.map_map]
  congr 1
  apply List.map_congr_left
  intro i _
  simp [Nat.add_assoc]

/-- A region whose every byte is `c`. -/
theorem region_eq_replicate (mem : Nat → Nat) (p n c : Nat)
    (h : ∀ i, i < n → mem (p + i) = c) : region mem p n = List.replicate n c := by
  unfold region
  apply List.ext_getElem
  · simp
  · intro i h1 h2
    simp at h1
    simp [h i h1]

/-! ## `MemoryItem::GetDataAt` and `MemoryItem::SetDataAt`: the bounds check -/

/-- When the sum of size and offset fits the size type and exceeds the capacity,
`GetDataAt` returns `ERROR_PARAM_OUT_OF_RANGE` and changes nothing. -/
theorem GetDataAt_beyond_capacity (rt : Runtime) (self : MemoryItem) (m : Machine)
    (lSize nOffsetInBytes dst p : Nat) (hp : self.m_pData = some p) (hpos : 0 < lSize)
    (hfit : lSize + nOffsetInBytes < 2 ^ 64) (hbig : self.m_lSize < lSize + nOffsetInBytes) :
    MemoryItem.GetDataAt rt self m lSize (some dst) nOffsetInBytes
      = { status := Status.ERROR_PARAM_OUT_OF_RANGE, item := self, mach := m } := by
  have h1 : (lSize + nOffsetInBytes) % 2 ^ 64 % 2 ^ 64 = lSize + nOffsetInBytes := by omega
  have h2 : ¬ lSize ≤ 0 := by omega
  simp only [MemoryItem.GetDataAt, hp, toSizeT_toLongLong, h1, h2, if_false]
  rw [if_neg (by unfold SIZE_MAX; omega), if_pos hbig]

/-- When the sum of size and offset fits the size type and exceeds the capacity,
`SetDataAt` returns `ERROR_PARAM_OUT_OF_RANGE` and changes nothing. -/
theorem SetDataAt_beyond_capacity (rt : Runtime) (self : MemoryItem) (m : Machine)
    (lSize nOffsetInBytes src p : Nat) (hp : self.m_pData = some p) (hpos : 0 < lSize)
    (hfit : lSize + nOffsetInBytes < 2 ^ 64) (hbig : self.m_lSize < lSize + nOffsetInBytes) :
    MemoryItem.SetDataAt rt self m lSize (some src) nOffsetInBytes
      = { status := Status.ERROR_PARAM_OUT_OF_RANGE, item := self, mach := m } := by
  have h1 : (lSize + nOffsetInBytes) % 2 ^ 64 % 2 ^ 64 = lSize + nOffsetInBytes := by omega
  have h2 : ¬ lSize ≤ 0 := by omega
  simp only [MemoryItem.SetDataAt, hp, toSizeT_toLongLong, h1, h2, if_false]
  rw [if_neg (by unfold SIZE_MAX; omega), if_pos hbig]

/-- When the sum of size and offset does not fit the size type and its low 64 bits
are within the capacity, `GetDataAt` passes every check and issues the copy of
`lSize` bytes from offset `nOffsetInBytes`. -/
theorem GetDataAt_wrapped_sum_passes (rt : Runtime) (self : MemoryItem) (m : Machine)
    (lSize nOffsetInBytes dst p : Nat) (hp : self.m_pData = some p) (hpos : 0 < lSize)
    (hwrap : 2 ^ 64 ≤ lSize + nOffsetInBytes)
    (hlow : lSize + nOffsetInBytes - 2 ^ 64 ≤ self.m_lSize)
    (hl : lSize < 2 ^ 64) (ho : nOffsetInBytes < 2 ^ 64) :
    (MemoryItem.GetDataAt rt self m lSize (some dst) nOffsetInBytes).status
        = Status.cuda (rt.err m.calls.length) ∧
      (MemoryItem.GetDataAt rt self m lSize (some dst) nOffsetInBytes).mach.calls
        = m.calls ++ [CudaCall.memcpyDeviceToHost dst (p + nOffsetInBytes) lSize] := by
  have h1 : (lSize + nOffsetInBytes) % 2 ^ 64 % 2 ^ 64 = lSize + nOffsetInBytes - 2 ^ 64 := by
    omega
  have h2 : ¬ lSize ≤ 0 := by omega
  simp only [MemoryItem.GetDataAt, hp, toSizeT_toLongLong, h1, h2, if_false]
  rw [if_neg (by unfold SIZE_MAX; omega), if_neg (by omega)]
  exact ⟨by simp only [cudaMemcpyDeviceToHost_status],
    by simp only [cudaMemcpyDeviceToHost_calls]⟩

/-- When the sum of size and offset does not fit the size type and its low 64 bits
are within the capacity, `SetDataAt` passes every check and issues the copy of
`lSize` bytes to offset `nOffsetInBytes`. -/
theorem SetDataAt_wrapped_sum_passes (rt : Runtime) (self : MemoryItem) (m : Machine)
    (lSize nOffsetInBytes src p : Nat) (hp : self.m_pData = some p) (hpos : 0 < lSize)
    (hwrap : 2 ^ 64 ≤ lSize + nOffsetInBytes)
    (hlow : lSize + nOffsetInBytes - 2 ^ 64 ≤ self.m_lSize)
    (hl : lSize < 2 ^ 64) (ho : nOffsetInBytes < 2 ^ 64) :
    (MemoryItem.SetDataAt rt self m lSize (some src) nOffsetInBytes).status
        = Status.cuda (rt.err m.calls.length) ∧
      (MemoryItem.SetDataAt rt self m lSize (some src) nOffsetInBytes).mach.calls
        = m.calls ++ [CudaCall.memcpyHostToDevice (p + nOffsetInBytes) src lSize] := by
  have h1 : (lSize + nOffsetInBytes) % 2 ^ 64 % 2 ^ 64 = lSize + nOffsetInBytes - 2 ^ 64 := by
    omega
  have h2 : ¬ lSize ≤ 0 := by omega
  simp only [MemoryItem.SetDataAt, hp, toSizeT_toLongLong, h1, h2, if_false]
  rw [if_neg (by unfold SIZE_MAX; omega), if_neg (by omega)]
  exact ⟨by simp only [cudaMemcpyHostToDevice_status],
    by simp only [cudaMemcpyHostToDevice_calls]⟩

/-- C1, evaluated at the failing input: on a block of capacity 16, a request of
`SIZE_MAX` bytes at offset 2 (the sum overflows the size type and exceeds the
capacity) is not rejected.  `GetDataAt` and `SetDataAt` both return success with
a runtime that works, both issue a copy of `SIZE_MAX` bytes at offset 2, and
`SetDataAt` changes the contents of the block. -/
theorem C1_wrapped_sum_is_copied :
    (16 < (2 ^ 64 - 1) + 2) ∧
    (MemoryItem.GetDataAt okRuntime blk16 mach0 (2 ^ 64 - 1) (some 50) 2).status
      = Status.success ∧
    (MemoryItem.GetDataAt okRuntime blk16 mach0 (2 ^ 64 - 1) (some 50) 2).mach.calls
      = [CudaCall.memcpyDeviceToHost 50 1002 (2 ^ 64 - 1)] ∧
    (MemoryItem.SetDataAt okRuntime blk16 mach0 (2 ^ 64 - 1) (some 50) 2).status
      = Status.success ∧
    (MemoryItem.SetDataAt okRuntime blk16 mach0 (2 ^ 64 - 1) (some 50) 2).mach.calls
      = [CudaCall.memcpyHostToDevice 1002 50 (2 ^ 64 - 1)] ∧
    region mach0.dev 1000 16 = [9, 9, 9, 9, 9, 9, 9, 9, 9, 9, 9, 9, 9, 9, 9, 9] ∧
    region (MemoryItem.SetDataAt okRuntime blk16 mach0 (2 ^ 64 - 1) (some 50) 2).mach.dev 1000 16
      = [9, 9, 1, 2, 3, 4, 5, 6, 0, 1, 2, 3, 4, 5, 6, 0] := by
  decide

/-! ## `MemoryCollection::GetData`: handle resolution -/

/-- A handle below 1 or from `MAX_ITEMS * 2` on is refused before anything else. -/
theorem GetData_out_of_range (heap : Heap) (self : Nat) (hHandle : Int)
    (ppItem : Option (Option ItemPtr)) (h : hHandle < 1 ∨ hHandle ≥ MAX_ITEMS * 2) :
    MemoryCollection.GetData heap self hHandle ppItem
      = (Status.ERROR_PARAM_OUT_OF_RANGE, ppItem) := by
  rw [MemoryCollection.GetData.eq_def, if_pos h]

/-- A handle from 1 to `MAX_ITEMS`, both included, is resolved in the table itself. -/
theorem GetData_local (heap : Heap) (self : Nat) (hHandle : Int) (v : Option ItemPtr)
    (h1 : 1 ≤ hHandle) (h2 : hHandle ≤ MAX_ITEMS) :
    MemoryCollection.GetData heap self hHandle (some v)
      = (Status.success, some (some { table := self, index := hHandle })) := by
  have hr : ¬ (hHandle < 1 ∨ hHandle ≥ MAX_ITEMS * 2) := by
    simp only [MAX_ITEMS] at *; omega
  have hg : ¬ hHandle > MAX_ITEMS := by omega
  rw [MemoryCollection.GetData, if_neg hr]
  simp only [hg, if_false]

/-- A handle strictly between `MAX_ITEMS` and `MAX_ITEMS * 2` is refused by a table
without a peer. -/
theorem GetData_no_peer (heap : Heap) (self : Nat) (hHandle : Int) (v : Option ItemPtr)
    (h1 : MAX_ITEMS < hHandle) (h2 : hHandle < MAX_ITEMS * 2)
    (hpeer : (heap self).m_pMemPtrs = none) :
    MemoryCollection.GetData heap self hHandle (some v)
      = (Status.ERROR_PARAM_OUT_OF_RANGE, some v) := by
  have hr : ¬ (hHandle < 1 ∨ hHandle ≥ MAX_ITEMS * 2) := by
    simp only [MAX_ITEMS] at *; omega
  rw [MemoryCollection.GetData, if_neg hr]
  simp only [gt_iff_lt, h1, if_true, hpeer]

/-- A handle strictly between `MAX_ITEMS` and `MAX_ITEMS * 2` is answered by the
peer, asked for the handle less `MAX_ITEMS`. -/
theorem GetData_redirected (heap : Heap) (self peer : Nat) (hHandle : Int)
    (ppItem : Option (Option ItemPtr))
    (h1 : MAX_ITEMS < hHandle) (h2 : hHandle < MAX_ITEMS * 2)
    (hpeer : (heap self).m_pMemPtrs = some peer) :
    MemoryCollection.GetData heap self hHandle ppItem
      = MemoryCollection.GetData heap peer (hHandle - MAX_ITEMS) ppItem := by
  have hr : ¬ (hHandle < 1 ∨ hHandle ≥ MAX_ITEMS * 2) := by
    simp only [MAX_ITEMS] at *; omega
  have hr2 : ¬ (hHandle - MAX_ITEMS < 1 ∨ hHandle - MAX_ITEMS ≥ MAX_ITEMS * 2) := by
    simp only [MAX_ITEMS] at *; omega
  cases ppItem with
  | none =>
    rw [MemoryCollection.GetData, if_neg hr, MemoryCollection.GetData, if_neg hr2]
  | some v =>
    rw [MemoryCollection.GetData, if_neg hr]
    simp only [gt_iff_lt, h1, if_true, hpeer]
    split
    · rfl
    · rename_i hs
      exact Prod.ext (not_not.mp hs).symm rfl

/-- C2, evaluated at the failing input: the handle `MAX_ITEMS` itself is not
redirected.  Whatever the peer configuration, `GetData` returns success and the
address of element `MAX_ITEMS` of the table's own array, one past its last
element, where there is no object; the peer, asked for handle `MAX_ITEMS -
MAX_ITEMS`, answers `ERROR_PARAM_OUT_OF_RANGE`. -/
theorem C2_handle_MAX_ITEMS_not_redirected (heap : Heap) (self peer : Nat)
    (v : Option ItemPtr) :
    MemoryCollection.GetData heap self MAX_ITEMS (some v)
        = (Status.success, some (some { table := self, index := MAX_ITEMS })) ∧
      heap.load { table := self, index := MAX_ITEMS } = none ∧
      MemoryCollection.GetData heap peer (MAX_ITEMS - MAX_ITEMS) (some v)
        = (Status.ERROR_PARAM_OUT_OF_RANGE, some v) := by
  refine ⟨GetData_local heap self MAX_ITEMS v (by decide) (le_refl _),
    by simp [Heap.load, ItemPtr.inBounds], ?_⟩
  exact GetData_out_of_range heap peer _ _ (Or.inl (by decide))

/-- C3: for a handle below 1 (0 and the negative values) or from `MAX_ITEMS * 2`
on, `GetData` returns `ERROR_PARAM_OUT_OF_RANGE` and leaves the variable behind
`ppItem` as it was, whatever the peer and whatever `ppItem`. -/
theorem C3_invalid_handle_out_of_range (heap : Heap) (self : Nat) (hHandle : Int)
    (ppItem : Option (Option ItemPtr)) (h : hHandle < 1 ∨ MAX_ITEMS * 2 ≤ hHandle) :
    (MemoryCollection.GetData heap self hHandle ppItem).1 = Status.ERROR_PARAM_OUT_OF_RANGE ∧
      (MemoryCollection.GetData heap self hHandle ppItem).2 = ppItem := by
  rw [GetData_out_of_range heap self hHandle ppItem h]
  exact ⟨rfl, rfl⟩

/-- Witness of C3: handle 0 on a table that has a peer. -/
theorem C3_invalid_handle_out_of_range_witness :
    ((0 : Int) < 1 ∨ MAX_ITEMS * 2 ≤ 0) ∧
      (MemoryCollection.GetData heapAB 0 0 (some none)).1 = Status.ERROR_PARAM_OUT_OF_RANGE ∧
      (MemoryCollection.GetData heapAB 0 0 (some none)).2 = some none :=
  ⟨Or.inl (by decide), C3_invalid_handle_out_of_range heapAB 0 0 (some none) (Or.inl (by decide))⟩

/-- C4: when the peer of table `a` is table `b` and `1 <= k < MAX_ITEMS`,
`GetData` on `a` with handle `MAX_ITEMS + k` succeeds and yields the same block
as `GetData` on `b` with handle `k`: slot `k` of `b`, an element of its array. -/
theorem C4_peer_handle_resolves_to_peer_slot (heap : Heap) (a b : Nat) (k : Int)
    (v : Option ItemPtr) (hpeer : (heap a).m_pMemPtrs = some b)
    (h1 : 1 ≤ k) (h2 : k < MAX_ITEMS) :
    MemoryCollection.GetData heap a (MAX_ITEMS + k) (some v)
        = (Status.success, some (some { table := b, index := k })) ∧
      MemoryCollection.GetData heap b k (some v)
        = (Status.success, some (some { table := b, index := k })) ∧
      heap.load { table := b, index := k } = some ((heap b).m_rgHandles k.toNat) := by
  have hk : MAX_ITEMS + k - MAX_ITEMS = k := by omega
  refine ⟨?_, GetData_local heap b k v h1 (le_of_lt h2), ?_⟩
  · rw [GetData_redirected heap a b (MAX_ITEMS + k) (some v) (by omega)
      (by simp only [MAX_ITEMS] at *; omega) hpeer, hk]
    exact GetData_local heap b k v h1 (le_of_lt h2)
  · have hb : 0 ≤ k ∧ k < MAX_ITEMS := ⟨by omega, h2⟩
    simp [Heap.load, ItemPtr.inBounds, hb]

/-- Witness of C4: table 0 with peer table 1, `k = 5`. -/
theorem C4_peer_handle_resolves_to_peer_slot_witness :
    (heapAB 0).m_pMemPtrs = some 1 ∧ (1 : Int) ≤ 5 ∧ (5 : Int) < MAX_ITEMS ∧
      (MemoryCollection.GetData heapAB 0 (MAX_ITEMS + 5) (some none)
          = (Status.success, some (some { table := 1, index := 5 })) ∧
        MemoryCollection.GetData heapAB 1 5 (some none)
          = (Status.success, some (some { table := 1, index := 5 })) ∧
        heapAB.load { table := 1, index := 5 } = some ((heapAB 1).m_rgHandles (5 : Int).toNat)) :=
  ⟨rfl, by decide, by decide,
    C4_peer_handle_resolves_to_peer_slot heapAB 0 1 5 none rfl (by decide) (by decide)⟩

/-! ## The handle-taking transfers of `MemoryCollection` -/

/-- In the redirected branch the peer resolves the handle, and the call then goes
through the function-level `pItem`, which was never assigned. -/
theorem GetDataAt_redirected_undefined (rt : Runtime) (heap : Heap) (self peer : Nat)
    (m : Machine) (hHandle : Int) (bHalf : Bool) (lSize : Nat) (pDst : Option Nat)
    (nOffsetInBytes : Nat) (h1 : MAX_ITEMS < hHandle) (h2 : hHandle < MAX_ITEMS * 2)
    (hpeer : (heap self).m_pMemPtrs = some peer) :
    MemoryCollection.GetDataAt rt heap self m hHandle bHalf lSize pDst nOffsetInBytes = none := by
  have hr : ¬ (hHandle < 1 ∨ hHandle ≥ MAX_ITEMS * 2) := by
    simp only [MAX_ITEMS] at *; omega
  have hloc := GetData_local heap peer (hHandle - MAX_ITEMS) none (by omega)
    (by simp only [MAX_ITEMS] at *; omega)
  simp [MemoryCollection.GetDataAt, hr, h1, hpeer, hloc, MemoryCollection.callGetDataAt]

/-- The redirected branch of the handle-taking `SetData` ends in a call through the
function-level `pItem`, which was never assigned. -/
theorem SetData_redirected_undefined (rt : Runtime) (heap : Heap) (self peer : Nat)
    (m : Machine) (hHandle : Int) (bHalf : Bool) (lSize : Nat) (pSrc pStream : Option Nat)
    (h1 : MAX_ITEMS < hHandle) (h2 : hHandle < MAX_ITEMS * 2)
    (hpeer : (heap self).m_pMemPtrs = some peer) :
    MemoryCollection.SetData rt heap self m hHandle bHalf lSize pSrc pStream = none := by
  have hr : ¬ (hHandle < 1 ∨ hHandle ≥ MAX_ITEMS * 2) := by
    simp only [MAX_ITEMS] at *; omega
  have hloc := GetData_local heap peer (hHandle - MAX_ITEMS) none (by omega)
    (by simp only [MAX_ITEMS] at *; omega)
  simp [MemoryCollection.SetData, hr, h1, hpeer, hloc, MemoryCollection.callSetData]

/-- The redirected branch of the handle-taking `SetDataAt` ends in a call through
the function-level `pItem`, which was never assigned. -/
theorem SetDataAt_redirected_undefined (rt : Runtime) (heap : Heap) (self peer : Nat)
    (m : Machine) (hHandle : Int) (bHalf : Bool) (lSize : Nat) (pSrc : Option Nat)
    (nOffsetInBytes : Nat) (h1 : MAX_ITEMS < hHandle) (h2 : hHandle < MAX_ITEMS * 2)
    (hpeer : (heap self).m_pMemPtrs = some peer) :
    MemoryCollection.SetDataAt rt heap self m hHandle bHalf lSize pSrc nOffsetInBytes = none := by
  have hr : ¬ (hHandle < 1 ∨ hHandle ≥ MAX_ITEMS * 2) := by
    simp only [MAX_ITEMS] at *; omega
  have hloc := GetData_local heap peer (hHandle - MAX_ITEMS) none (by omega)
    (by simp only [MAX_ITEMS] at *; omega)
  simp [MemoryCollection.SetDataAt, hr, h1, hpeer, hloc, MemoryCollection.callSetDataAt]

/-- C5, evaluated at the failing input: table 0 has table 1 as its peer and slot 1
of table 1 holds a block of 16 bytes.  Called on table 0 with handle
`MAX_ITEMS + 1`, the handle-taking `GetDataAt`, `SetData` and `SetDataAt` have no
defined result: the block the peer resolves is stored in the `pItem` of the inner
scope and the call goes through the function-level `pItem`, which is not
initialised.  The same calls on table 1 with handle 1 return success and
transfer the data. -/
theorem C5_redirected_transfer_undefined :
    (heapAB 0).m_pMemPtrs = some 1 ∧
    MemoryCollection.GetDataAt okRuntime heapAB 0 mach0 (MAX_ITEMS + 1) false 4 (some 50) 2 = none ∧
    MemoryCollection.SetData okRuntime heapAB 0 mach0 (MAX_ITEMS + 1) false 4 (some 50) none = none ∧
    MemoryCollection.SetDataAt okRuntime heapAB 0 mach0 (MAX_ITEMS + 1) false 4 (some 50) 2 = none ∧
    (MemoryCollection.GetDataAt okRuntime heapAB 1 mach0 1 false 4 (some 50) 2).map
        (fun r => (r.status, r.mach.calls, region r.mach.host 50 4))
      = some (Status.success, [CudaCall.memcpyDeviceToHost 50 1002 4], [9, 9, 9, 9]) ∧
    (MemoryCollection.SetData okRuntime heapAB 1 mach0 1 false 4 (some 50) none).map
        (fun r => (r.status, r.mach.calls, region r.mach.dev 1000 6))
      = some (Status.success,
          [CudaCall.memset 1000 0 16, CudaCall.memcpyHostToDevice 1000 50 4], [1, 2, 3, 4, 0, 0]) ∧
    (MemoryCollection.SetDataAt okRuntime heapAB 1 mach0 1 false 4 (some 50) 2).map
        (fun r => (r.status, r.mach.calls, region r.mach.dev 1000 6))
      = some (Status.success, [CudaCall.memcpyHostToDevice 1002 50 4], [9, 9, 1, 2, 3, 4]) := by
  refine ⟨rfl, ?_, ?_, ?_, by decide, by decide, by decide⟩
  · exact GetDataAt_redirected_undefined _ _ 0 1 _ _ _ _ _ _ (by decide) (by decide) rfl
  · exact SetData_redirected_undefined _ _ 0 1 _ _ _ _ _ _ (by decide) (by decide) rfl
  · exact SetDataAt_redirected_undefined _ _ 0 1 _ _ _ _ _ _ (by decide) (by decide) rfl

/-- The handle-taking `GetDataAt`, `SetData` and `SetDataAt` do not depend on their
`bHalf` argument. -/
theorem handle_transfers_ignore_bHalf (rt : Runtime) (heap : Heap) (self : Nat) (m : Machine)
    (hHandle : Int) (bHalf : Bool) (lSize : Nat) (p pStream : Option Nat) (nOffsetInBytes : Nat) :
    MemoryCollection.GetDataAt rt heap self m hHandle bHalf lSize p nOffsetInBytes
        = MemoryCollection.GetDataAt rt heap self m hHandle (!bHalf) lSize p nOffsetInBytes ∧
      MemoryCollection.SetData rt heap self m hHandle bHalf lSize p pStream
        = MemoryCollection.SetData rt heap self m hHandle (!bHalf) lSize p pStream ∧
      MemoryCollection.SetDataAt rt heap self m hHandle bHalf lSize p nOffsetInBytes
        = MemoryCollection.SetDataAt rt heap self m hHandle (!bHalf) lSize p nOffsetInBytes :=
  ⟨rfl, rfl, rfl⟩

/-- C6, evaluated at the failing input: slot 1 of table 1 holds a block tagged as
not half precision.  Called with handle 1 and `bHalf = true`, the handle-taking
`GetDataAt`, `SetData` and `SetDataAt` all return success and issue their copy;
the overloads that take a `MemoryItem*` refuse the same request on the same block
with `ERROR_PARAM_OUT_OF_RANGE` and issue no runtime call. -/
theorem C6_handle_transfers_with_wrong_tag :
    (heapAB 1).m_pMemPtrs = none ∧
    heapAB.load { table := 1, index := 1 } = some blk16 ∧ blk16.IsHalf = false ∧
    (MemoryCollection.GetDataAt okRuntime heapAB 1 mach0 1 true 4 (some 50) 2).map
        (fun r => (r.status, r.mach.calls, region r.mach.host 50 4))
      = some (Status.success, [CudaCall.memcpyDeviceToHost 50 1002 4], [9, 9, 9, 9]) ∧
    (MemoryCollection.SetData okRuntime heapAB 1 mach0 1 true 16 (some 50) none).map
        (fun r => (r.status, r.mach.calls, region r.mach.dev 1000 4))
      = some (Status.success, [CudaCall.memcpyHostToDevice 1000 50 16], [1, 2, 3, 4]) ∧
    (MemoryCollection.SetDataAt okRuntime heapAB 1 mach0 1 true 4 (some 50) 2).map
        (fun r => (r.status, r.mach.calls, region r.mach.dev 1000 6))
      = some (Status.success, [CudaCall.memcpyHostToDevice 1002 50 4], [9, 9, 1, 2, 3, 4]) ∧
    (MemoryCollection.SetDataItem okRuntime blk16 mach0 true 16 (some 50) none).status
      = Status.ERROR_PARAM_OUT_OF_RANGE ∧
    (MemoryCollection.SetDataItem okRuntime blk16 mach0 true 16 (some 50) none).mach.calls = [] ∧
    (MemoryCollection.SetDataAtItem okRuntime blk16 mach0 true 4 (some 50) 2).status
      = Status.ERROR_PARAM_OUT_OF_RANGE ∧
    (MemoryCollection.SetDataAtItem okRuntime blk16 mach0 true 4 (some 50) 2).mach.calls = [] := by
  decide

/-! ## Allocate, then read back -/

/-- Method `Free` leaves host and device memory as they were. -/
theorem Free_memory (self : MemoryItem) (m : Machine) :
    (MemoryItem.Free self m).mach.host = m.host ∧ (MemoryItem.Free self m).mach.dev = m.dev := by
  unfold MemoryItem.Free cudaFree
  cases self.m_pData <;> simp
  split <;> simp

/-- What a fresh allocation with a synchronous copy that returned success left behind. -/
theorem Allocate_success (rt : Runtime) (self : MemoryItem) (m : Machine) (nDeviceID : Int)
    (bHalf : Bool) (N src : Nat) (hN : 0 < N)
    (h : (MemoryItem.Allocate rt self m nDeviceID bHalf N (some src) none).status
      = Status.success) :
    ∃ p, (MemoryItem.Allocate rt self m nDeviceID bHalf N (some src) none).item
          = { m_pData := some p, m_lSize := N, m_nDeviceID := nDeviceID, m_bOwner := true,
              m_bHalf := bHalf } ∧
      (MemoryItem.Allocate rt self m nDeviceID bHalf N (some src) none).mach.host = m.host ∧
      ∀ i, i < N →
        (MemoryItem.Allocate rt self m nDeviceID bHalf N (some src) none).mach.dev (p + i)
          = m.host (src + i) := by
  have hN0 : N ≠ 0 := by omega
  have hf := Free_memory self m
  revert h
  unfold MemoryItem.Allocate
  simp only [hN0, if_false]
  unfold cudaMalloc
  by_cases e0 : rt.err (MemoryItem.Free self m).mach.calls.length = 0
  · simp only [e0, if_true]
    by_cases e1 : (cudaMemset rt { (MemoryItem.Free self m).mach with
        calls := (MemoryItem.Free self m).mach.calls ++ [CudaCall.malloc N] }
        (rt.ptr (MemoryItem.Free self m).mach.calls.length) 0 N).1 = 0
    · simp only [e1, ne_eq, not_true_eq_false, if_false]
      intro h
      simp only [Status.success, Status.cuda.injEq, cudaMemcpyHostToDevice_status] at h
      refine ⟨rt.ptr (MemoryItem.Free self m).mach.calls.length, rfl, ?_, ?_⟩
      · simp only [cudaMemcpyHostToDevice_host, cudaMemset_host, hf.1]
      · intro i hi
        rw [cudaMemcpyHostToDevice_dev _ _ _ _ _ h]
        simp only [cudaMemset_host, hf.1]
        have : rt.ptr (MemoryItem.Free self m).mach.calls.length + i
            - rt.ptr (MemoryItem.Free self m).mach.calls.length = i := by omega
        simp [hi, this]
    · simp only [e1, ne_eq, not_false_eq_true, if_true]
      intro h
      simp only [Status.success, Status.cuda.injEq] at h
      exact absurd h e1
  · simp only [e0, if_false]
    intro h
    simp only [Status.success, Status.cuda.injEq] at h
    exact absurd h e0

/-- C7, counterexample: the fresh `Allocate` of 4 bytes with a synchronous copy
from a host buffer returns success, and the `GetData(4, dst)` and
`GetDataAt(4, dst, 0)` that follow return the status 700 that the runtime gives
their device-to-host copy, which is not success. -/
theorem C7_read_fails_after_successful_allocate :
    (MemoryItem.Allocate readFailRuntime MemoryItem.construct mach0 0 false 4 (some 50) none).status
      = Status.success ∧
    (MemoryItem.GetData readFailRuntime
        (MemoryItem.Allocate readFailRuntime MemoryItem.construct mach0 0 false 4 (some 50) none).item
        (MemoryItem.Allocate readFailRuntime MemoryItem.construct mach0 0 false 4 (some 50) none).mach
        4 (some 80)).status = Status.cuda 700 ∧
    (MemoryItem.GetDataAt readFailRuntime
        (MemoryItem.Allocate readFailRuntime MemoryItem.construct mach0 0 false 4 (some 50) none).item
        (MemoryItem.Allocate readFailRuntime MemoryItem.construct mach0 0 false 4 (some 50) none).mach
        4 (some 80) 0).status = Status.cuda 700 ∧
    Status.cuda 700 ≠ Status.success := by
  decide

/-- C7, as amended: for `0 < N` of the size type, when the fresh `Allocate` of `N`
bytes with a synchronous copy from the host buffer at `src` returned success, the
`GetData(N, dst)` that follows with a non-null `dst` does exactly what
`GetDataAt(N, dst, 0)` does, passes every check and returns the status of its
device-to-host copy; when that status is success, the `N` bytes at `dst` are the
`N` bytes the buffer at `src` held when `Allocate` was called. -/
theorem C7_allocate_then_read_round_trip (rt : Runtime) (self : MemoryItem) (m : Machine)
    (nDeviceID : Int) (bHalf : Bool) (N src dst : Nat) (hN : 0 < N) (hsz : N ≤ SIZE_MAX)
    (halloc : (MemoryItem.Allocate rt self m nDeviceID bHalf N (some src) none).status
      = Status.success) :
    (MemoryItem.GetData rt
        (MemoryItem.Allocate rt self m nDeviceID bHalf N (some src) none).item
        (MemoryItem.Allocate rt self m nDeviceID bHalf N (some src) none).mach N (some dst)
      = MemoryItem.GetDataAt rt
        (MemoryItem.Allocate rt self m nDeviceID bHalf N (some src) none).item
        (MemoryItem.Allocate rt self m nDeviceID bHalf N (some src) none).mach N (some dst) 0) ∧
    (MemoryItem.GetData rt
        (MemoryItem.Allocate rt self m nDeviceID bHalf N (some src) none).item
        (MemoryItem.Allocate rt self m nDeviceID bHalf N (some src) none).mach N (some dst)).status
      = Status.cuda (rt.err
          (MemoryItem.Allocate rt self m nDeviceID bHalf N (some src) none).mach.calls.length) ∧
    ((MemoryItem.GetData rt
        (MemoryItem.Allocate rt self m nDeviceID bHalf N (some src) none).item
        (MemoryItem.Allocate rt self m nDeviceID bHalf N (some src) none).mach N (some dst)).status
      = Status.success →
      region (MemoryItem.GetData rt
        (MemoryItem.Allocate rt self m nDeviceID bHalf N (some src) none).item
        (MemoryItem.Allocate rt self m nDeviceID bHalf N (some src) none).mach N
          (some dst)).mach.host dst N
        = region m.host src N) := by
  obtain ⟨p, hit, hhost, hdev⟩ := Allocate_success rt self m nDeviceID bHalf N src hN halloc
  generalize MemoryItem.Allocate rt self m nDeviceID bHalf N (some src) none = a at *
  have hN0 : ¬ (N ≤ 0 ∨ N > N) := by omega
  have hN1 : ¬ N ≤ 0 := by omega
  have hmod : (N + 0) % 2 ^ 64 % 2 ^ 64 = N := by unfold SIZE_MAX at hsz; omega
  have hget : MemoryItem.GetData rt a.item a.mach N (some dst)
      = { status := Status.cuda (cudaMemcpyDeviceToHost rt a.mach dst p N).1, item := a.item,
          mach := (cudaMemcpyDeviceToHost rt a.mach dst p N).2 } := by
    simp only [MemoryItem.GetData, hit, hN0, if_false]
  refine ⟨?_, ?_, ?_⟩
  · rw [hget]
    simp only [MemoryItem.GetDataAt, hit, hN1, if_false, toSizeT_toLongLong, hmod]
    rw [if_neg (by omega), if_neg (by omega)]
    rfl
  · rw [hget]
    simp only [cudaMemcpyDeviceToHost_status]
  · rw [hget]
    simp only [cudaMemcpyDeviceToHost_status, Status.success, Status.cuda.injEq]
    intro hs
    rw [cudaMemcpyDeviceToHost_host _ _ _ _ _ hs, region_eq_iff]
    intro i hi
    have : dst + i - dst = i := by omega
    simp [hi, this, hdev i hi]

/-- Witness of C7: 4 bytes allocated from the host buffer at 50 and read back to
the host buffer at 80, on a runtime that works. -/
theorem C7_allocate_then_read_round_trip_witness :
    0 < 4 ∧ 4 ≤ SIZE_MAX ∧
      (MemoryItem.Allocate okRuntime MemoryItem.construct mach0 0 false 4 (some 50) none).status
        = Status.success ∧
      region (MemoryItem.GetData okRuntime
        (MemoryItem.Allocate okRuntime MemoryItem.construct mach0 0 false 4 (some 50) none).item
        (MemoryItem.Allocate okRuntime MemoryItem.construct mach0 0 false 4 (some 50) none).mach
          4 (some 80)).mach.host 80 4
        = region mach0.host 50 4 :=
  ⟨by decide, by decide, by decide,
    (C7_allocate_then_read_round_trip okRuntime MemoryItem.construct mach0 0 false 4 50 80
      (by decide) (by decide) (by decide)).2.2 (by decide)⟩

/-! ## `MemoryItem::SetData` and `MemoryItem::SetDataAt`: what is written -/

/-- C8, counterexample, two inputs.  First: on a block of 16 bytes that holds 9s,
`SetData(4, src)` with a runtime whose zero-fill fails returns success (the status
of `cudaMemset` is dropped) and leaves 9s, not zeros, after the 4 copied bytes.
Second: on a block of `SIZE_MAX` bytes, the request `n = SIZE_MAX - 5`, which
is positive and below the capacity, is in the sentinel range: one copy of
`SIZE_MAX` bytes is issued, with no zero-fill, and the byte at offset `n` is
the source byte 4, not 0. -/
theorem C8_short_write_keeps_stale_tail :
    (MemoryItem.SetData fillFailRuntime blk16 mach0 4 (some 50) none).status = Status.success ∧
    (MemoryItem.SetData fillFailRuntime blk16 mach0 4 (some 50) none).mach.calls
      = [CudaCall.memset 1000 0 16, CudaCall.memcpyHostToDevice 1000 50 4] ∧
    region (MemoryItem.SetData fillFailRuntime blk16 mach0 4 (some 50) none).mach.dev 1000 16
      = [1, 2, 3, 4, 9, 9, 9, 9, 9, 9, 9, 9, 9, 9, 9, 9] ∧
    region mach0.host 50 4 ++ List.replicate (16 - 4) 0
      = [1, 2, 3, 4, 0, 0, 0, 0, 0, 0, 0, 0, 0, 0, 0, 0] ∧
    (0 < SIZE_MAX - 5 ∧ SIZE_MAX - 5 < blkMax.m_lSize) ∧
    (MemoryItem.SetData okRuntime blkMax mach0 (SIZE_MAX - 5) (some 50) none).status
      = Status.success ∧
    (MemoryItem.SetData okRuntime blkMax mach0 (SIZE_MAX - 5) (some 50) none).mach.calls
      = [CudaCall.memcpyHostToDevice 1000 50 SIZE_MAX] ∧
    (MemoryItem.SetData okRuntime blkMax mach0 (SIZE_MAX - 5) (some 50) none).mach.dev
      (1000 + (SIZE_MAX - 5)) = 4 := by
  decide

/-- C8, as amended: on a block at `p` of capacity `S`, for a requested size `n` with
`0 < n < S` that is below the sentinel range (`n < SIZE_MAX - 10`), a synchronous
`SetData(n, src)` whose zero-fill succeeded and that returned success leaves the
region equal to the first `n` bytes of the source followed by `S - n` zero bytes,
whatever the device held before. -/
theorem C8_short_write_zero_fills (rt : Runtime) (self : MemoryItem) (m : Machine)
    (n src p : Nat) (hp : self.m_pData = some p) (hn : 0 < n) (hlt : n < self.m_lSize)
    (hsent : n < SIZE_MAX - 10) (hfill : rt.err m.calls.length = 0)
    (hok : (MemoryItem.SetData rt self m n (some src) none).status = Status.success) :
    region (MemoryItem.SetData rt self m n (some src) none).mach.dev p self.m_lSize
      = region m.host src n ++ List.replicate (self.m_lSize - n) 0 := by
  have h1 : ¬ n ≥ SIZE_MAX - 10 := by omega
  have h2 : ¬ n ≤ 0 := by omega
  have h3 : ¬ n > self.m_lSize := by omega
  have hrun : MemoryItem.SetData rt self m n (some src) none
      = { status := Status.cuda
            (cudaMemcpyHostToDevice rt (cudaMemset rt m p 0 self.m_lSize).2 p src n).1,
          item := self,
          mach := (cudaMemcpyHostToDevice rt (cudaMemset rt m p 0 self.m_lSize).2 p src n).2 } := by
    simp only [MemoryItem.SetData, hp, h1, h2, h3, hlt, if_false, if_true]
  rw [hrun] at hok ⊢
  simp only [cudaMemcpyHostToDevice_status, Status.success, Status.cuda.injEq] at hok
  simp only [cudaMemcpyHostToDevice_dev _ _ _ _ _ hok, cudaMemset_host,
    cudaMemset_dev _ _ _ _ _ hfill]
  obtain ⟨k, hk⟩ : ∃ k, self.m_lSize = n + k := ⟨self.m_lSize - n, by omega⟩
  rw [hk, Nat.add_sub_cancel_left, region_split]
  congr 1
  · rw [region_eq_iff]
    intro i hi
    have : p + i - p = i := by omega
    simp [hi, this]
  · apply region_eq_replicate
    intro i hi
    have ha : ¬ (p + n + i < p + n) := by omega
    have hb : p + n + i < p + (n + k) := by omega
    have hc : p ≤ p + n + i := by omega
    simp [ha, hb, hc]

/-- Witness of C8: 4 bytes written to a block of 16 bytes, on a runtime that works. -/
theorem C8_short_write_zero_fills_witness :
    blk16.m_pData = some 1000 ∧ 0 < 4 ∧ 4 < blk16.m_lSize ∧ 4 < SIZE_MAX - 10 ∧
      okRuntime.err mach0.calls.length = 0 ∧
      (MemoryItem.SetData okRuntime blk16 mach0 4 (some 50) none).status = Status.success ∧
      region (MemoryItem.SetData okRuntime blk16 mach0 4 (some 50) none).mach.dev 1000
          blk16.m_lSize
        = region mach0.host 50 4 ++ List.replicate (blk16.m_lSize - 4) 0 :=
  ⟨rfl, by decide, by decide, by decide, rfl, by decide,
    C8_short_write_zero_fills okRuntime blk16 mach0 4 50 1000 rfl (by decide) (by decide)
      (by decide) rfl (by decide)⟩

/-- C9: on a non-free block at `p` of capacity `S > 0`, with a non-null source and
any stream, `SetData` with a size `lSize >= SIZE_MAX - 10` leaves behind exactly
what `SetData` with size `S` leaves behind; it passes the bounds checks (its
status is the status of the copy), and the one runtime call it issues is the copy
of `S` bytes from the source to `p`: there is no zero-fill. -/
theorem C9_sentinel_size_is_whole_block (rt : Runtime) (self : MemoryItem) (m : Machine)
    (lSize src p : Nat) (pStream : Option Nat) (hp : self.m_pData = some p)
    (hS : 0 < self.m_lSize) (hsent : SIZE_MAX - 10 ≤ lSize) :
    MemoryItem.SetData rt self m lSize (some src) pStream
        = MemoryItem.SetData rt self m self.m_lSize (some src) pStream ∧
      (MemoryItem.SetData rt self m lSize (some src) pStream).status
        = Status.cuda (rt.err m.calls.length) ∧
      (MemoryItem.SetData rt self m lSize (some src) pStream).mach.calls
        = m.calls ++ [match pStream with
            | some stream => CudaCall.memcpyAsyncHostToDevice p src self.m_lSize stream
            | none => CudaCall.memcpyHostToDevice p src self.m_lSize] := by
  have h2 : ¬ self.m_lSize ≤ 0 := by omega
  cases pStream with
  | none =>
    have hrun : MemoryItem.SetData rt self m lSize (some src) none
        = { status := Status.cuda (cudaMemcpyHostToDevice rt m p src self.m_lSize).1,
            item := self,
            mach := (cudaMemcpyHostToDevice rt m p src self.m_lSize).2 } := by
      simp only [MemoryItem.SetData, hp, ge_iff_le, hsent, if_true, h2, if_false, gt_iff_lt,
        lt_self_iff_false]
    have hrun2 : MemoryItem.SetData rt self m self.m_lSize (some src) none
        = { status := Status.cuda (cudaMemcpyHostToDevice rt m p src self.m_lSize).1,
            item := self,
            mach := (cudaMemcpyHostToDevice rt m p src self.m_lSize).2 } := by
      simp only [MemoryItem.SetData, hp, ge_iff_le, ite_self, h2, if_false, gt_iff_lt,
        lt_self_iff_false]
    refine ⟨hrun.trans hrun2.symm, ?_, ?_⟩
    · rw [hrun]
      simp only [cudaMemcpyHostToDevice_status]
    · rw [hrun]
      simp only [cudaMemcpyHostToDevice_calls]
  | some stream =>
    have hrun : MemoryItem.SetData rt self m lSize (some src) (some stream)
        = { status := Status.cuda
              (cudaMemcpyAsyncHostToDevice rt m p src self.m_lSize stream).1,
            item := self,
            mach := (cudaMemcpyAsyncHostToDevice rt m p src self.m_lSize stream).2 } := by
      simp only [MemoryItem.SetData, hp, ge_iff_le, hsent, if_true, h2, if_false, gt_iff_lt,
        lt_self_iff_false]
    have hrun2 : MemoryItem.SetData rt self m self.m_lSize (some src) (some stream)
        = { status := Status.cuda
              (cudaMemcpyAsyncHostToDevice rt m p src self.m_lSize stream).1,
            item := self,
            mach := (cudaMemcpyAsyncHostToDevice rt m p src self.m_lSize stream).2 } := by
      simp only [MemoryItem.SetData, hp, ge_iff_le, ite_self, h2, if_false, gt_iff_lt,
        lt_self_iff_false]
    refine ⟨hrun.trans hrun2.symm, ?_, ?_⟩
    · rw [hrun]
      rfl
    · rw [hrun]
      rfl

/-- Witness of C9: the size `SIZE_MAX` on a block of 16 bytes, without a stream. -/
theorem C9_sentinel_size_is_whole_block_witness :
    blk16.m_pData = some 1000 ∧ 0 < blk16.m_lSize ∧ SIZE_MAX - 10 ≤ SIZE_MAX ∧
      (MemoryItem.SetData okRuntime blk16 mach0 SIZE_MAX (some 50) none).mach.calls
        = mach0.calls ++ [CudaCall.memcpyHostToDevice 1000 50 blk16.m_lSize] :=
  ⟨rfl, by decide, by decide,
    (C9_sentinel_size_is_whole_block okRuntime blk16 mach0 SIZE_MAX 50 1000 none rfl
      (by decide) (by decide)).2.2⟩

/-- C10: on a non-free block at `p` of capacity `S` (a value of the size type), with
a non-null source, `n > 0` and `o + n <= S`, a `SetDataAt(n, src, o)` that returned
success has set the `n` bytes at offset `o` of the region to the first `n` bytes
of the source, has left every other byte of device memory, the host memory and
every field of the block as they were, and has issued the one copy. -/
theorem C10_write_at_offset_frame (rt : Runtime) (self : MemoryItem) (m : Machine)
    (n o src p : Nat) (hp : self.m_pData = some p) (hn : 0 < n) (hfit : o + n ≤ self.m_lSize)
    (hS : self.m_lSize ≤ SIZE_MAX)
    (hok : (MemoryItem.SetDataAt rt self m n (some src) o).status = Status.success) :
    region (MemoryItem.SetDataAt rt self m n (some src) o).mach.dev (p + o) n
        = region m.host src n ∧
      (∀ a, ¬ (p + o ≤ a ∧ a < p + o + n) →
        (MemoryItem.SetDataAt rt self m n (some src) o).mach.dev a = m.dev a) ∧
      (MemoryItem.SetDataAt rt self m n (some src) o).item = self ∧
      (MemoryItem.SetDataAt rt self m n (some src) o).mach.host = m.host ∧
      (MemoryItem.SetDataAt rt self m n (some src) o).mach.calls
        = m.calls ++ [CudaCall.memcpyHostToDevice (p + o) src n] := by
  have h2 : ¬ n ≤ 0 := by omega
  have hmod : (n + o) % 2 ^ 64 % 2 ^ 64 = n + o := by unfold SIZE_MAX at hS; omega
  have hrun : MemoryItem.SetDataAt rt self m n (some src) o
      = { status := Status.cuda (cudaMemcpyHostToDevice rt m (p + o) src n).1, item := self,
          mach := (cudaMemcpyHostToDevice rt m (p + o) src n).2 } := by
    simp only [MemoryItem.SetDataAt, hp, h2, if_false, toSizeT_toLongLong, hmod]
    rw [if_neg (by unfold SIZE_MAX; omega), if_neg (by omega)]
  rw [hrun] at hok ⊢
  simp only [cudaMemcpyHostToDevice_status, Status.success, Status.cuda.injEq] at hok
  simp only [cudaMemcpyHostToDevice_dev _ _ _ _ _ hok, cudaMemcpyHostToDevice_host,
    cudaMemcpyHostToDevice_calls]
  refine ⟨?_, ?_, trivial, trivial, trivial⟩
  · rw [region_eq_iff]
    intro i hi
    have : p + o + i - (p + o) = i := by omega
    simp [hi, this]
  · intro a ha
    simp [ha]

/-- Witness of C10: 4 bytes written at offset 2 of a block of 16 bytes. -/
theorem C10_write_at_offset_frame_witness :
    blk16.m_pData = some 1000 ∧ 0 < 4 ∧ 2 + 4 ≤ blk16.m_lSize ∧ blk16.m_lSize ≤ SIZE_MAX ∧
      (MemoryItem.SetDataAt okRuntime blk16 mach0 4 (some 50) 2).status = Status.success ∧
      region (MemoryItem.SetDataAt okRuntime blk16 mach0 4 (some 50) 2).mach.dev (1000 + 2) 4
        = region mach0.host 50 4 ∧
      (MemoryItem.SetDataAt okRuntime blk16 mach0 4 (some 50) 2).item = blk16 :=
  ⟨rfl, by decide, by decide, by decide, by decide,
    (C10_write_at_offset_frame okRuntime blk16 mach0 4 2 50 1000 rfl (by decide) (by decide)
      (by decide) (by decide)).1,
    (C10_write_at_offset_frame okRuntime blk16 mach0 4 2 50 1000 rfl (by decide) (by decide)
      (by decide) (by decide)).2.2.1⟩

/-! ## `MemoryItem::GetData`: the checks and the copy -/

/-- C11: `GetData(lSize, pDst)` returns `ERROR_PARAM_NULL` for a null `pDst`, whatever
the block, free or not; with a non-null `pDst` it fails with `ERROR_MEMORY_OUT` on
a free block and with `ERROR_PARAM_OUT_OF_RANGE` when `lSize` is 0 or above the
capacity, in each case without any runtime call or change; in every remaining
case it issues the one copy of exactly `lSize` bytes from the start of the region
to `pDst`, returns the status of that copy and leaves the block and device memory
unchanged, and when the copy succeeds the `lSize` bytes at `pDst` are the first
`lSize` bytes of the region and no other host byte has changed. -/
theorem C11_GetData_checks_then_copies (rt : Runtime) (self : MemoryItem) (m : Machine)
    (lSize dst p : Nat) :
    MemoryItem.GetData rt self m lSize none
        = { status := Status.ERROR_PARAM_NULL, item := self, mach := m } ∧
      (self.m_pData = none →
        MemoryItem.GetData rt self m lSize (some dst)
          = { status := Status.ERROR_MEMORY_OUT, item := self, mach := m }) ∧
      (self.m_pData = some p → lSize = 0 ∨ self.m_lSize < lSize →
        MemoryItem.GetData rt self m lSize (some dst)
          = { status := Status.ERROR_PARAM_OUT_OF_RANGE, item := self, mach := m }) ∧
      (self.m_pData = some p → 0 < lSize → lSize ≤ self.m_lSize →
        (MemoryItem.GetData rt self m lSize (some dst)).status
            = Status.cuda (rt.err m.calls.length) ∧
          (MemoryItem.GetData rt self m lSize (some dst)).item = self ∧
          (MemoryItem.GetData rt self m lSize (some dst)).mach.calls
            = m.calls ++ [CudaCall.memcpyDeviceToHost dst p lSize] ∧
          (MemoryItem.GetData rt self m lSize (some dst)).mach.dev = m.dev ∧
          (rt.err m.calls.length = 0 →
            region (MemoryItem.GetData rt self m lSize (some dst)).mach.host dst lSize
                = region m.dev p lSize ∧
              ∀ a, ¬ (dst ≤ a ∧ a < dst + lSize) →
                (MemoryItem.GetData rt self m lSize (some dst)).mach.host a = m.host a)) := by
  refine ⟨rfl, ?_, ?_, ?_⟩
  · intro hp
    simp only [MemoryItem.GetData, hp]
  · intro hp hbad
    have hb : lSize ≤ 0 ∨ lSize > self.m_lSize := by omega
    simp only [MemoryItem.GetData, hp, hb, if_true]
  · intro hp h1 h2
    have hb : ¬ (lSize ≤ 0 ∨ lSize > self.m_lSize) := by omega
    have hrun : MemoryItem.GetData rt self m lSize (some dst)
        = { status := Status.cuda (cudaMemcpyDeviceToHost rt m dst p lSize).1, item := self,
            mach := (cudaMemcpyDeviceToHost rt m dst p lSize).2 } := by
      simp only [MemoryItem.GetData, hp, hb, if_false]
    rw [hrun]
    refine ⟨by simp only [cudaMemcpyDeviceToHost_status], rfl,
      by simp only [cudaMemcpyDeviceToHost_calls], by simp only [cudaMemcpyDeviceToHost_dev], ?_⟩
    intro hok
    simp only [cudaMemcpyDeviceToHost_host _ _ _ _ _ hok]
    refine ⟨?_, ?_⟩
    · rw [region_eq_iff]
      intro i hi
      have : dst + i - dst = i := by omega
      simp [hi, this]
    · intro a ha
      simp [ha]

/-- Witness of C11: 4 bytes read from a block of 16 bytes on a runtime that works. -/
theorem C11_GetData_checks_then_copies_witness :
    blk16.m_pData = some 1000 ∧ 0 < 4 ∧ 4 ≤ blk16.m_lSize ∧
      (MemoryItem.GetData okRuntime blk16 mach0 4 (some 50)).status = Status.success ∧
      (MemoryItem.GetData okRuntime blk16 mach0 4 (some 50)).mach.calls
        = mach0.calls ++ [CudaCall.memcpyDeviceToHost 50 1000 4] :=
  ⟨rfl, by decide, by decide,
    ((C11_GetData_checks_then_copies okRuntime blk16 mach0 4 50 1000).2.2.2 rfl (by decide)
      (by decide)).1,
    ((C11_GetData_checks_then_copies okRuntime blk16 mach0 4 50 1000).2.2.2 rfl (by decide)
      (by decide)).2.2.1⟩

/-! ## Allocation with size 0 -/

/-- C12, counterexample: the fresh and the aliasing `Allocate` with `lSize = 0` return
`ERROR_PARAM_OUT_OF_RANGE`, whose kind is OutOfRange and not InvalidArgument. -/
theorem C12_size_zero_is_out_of_range :
    (MemoryItem.Allocate okRuntime MemoryItem.construct mach0 0 false 0 none none).status
      = Status.ERROR_PARAM_OUT_OF_RANGE ∧
    (MemoryItem.AllocateAlias MemoryItem.construct mach0 0 false (some 1000) 0).status
      = Status.ERROR_PARAM_OUT_OF_RANGE ∧
    (MemoryItem.Allocate okRuntime MemoryItem.construct mach0 0 false 0 none none).status.kind
      ≠ some ErrorKind.InvalidArgument ∧
    (MemoryItem.AllocateAlias MemoryItem.construct mach0 0 false (some 1000) 0).status.kind
      ≠ some ErrorKind.InvalidArgument := by
  decide

/-- C12, as amended: for every device id, precision flag, source buffer, stream and
external pointer, the fresh and the aliasing `Allocate` with `lSize = 0` return
`ERROR_PARAM_OUT_OF_RANGE`, the status of the kind OutOfRange, and leave the block
and the machine as they were. -/
theorem C12_size_zero_rejected (rt : Runtime) (self : MemoryItem) (m : Machine)
    (nDeviceID : Int) (bHalf : Bool) (pSrc pStream pData : Option Nat) :
    MemoryItem.Allocate rt self m nDeviceID bHalf 0 pSrc pStream
        = { status := Status.ERROR_PARAM_OUT_OF_RANGE, item := self, mach := m } ∧
      MemoryItem.AllocateAlias self m nDeviceID bHalf pData 0
        = { status := Status.ERROR_PARAM_OUT_OF_RANGE, item := self, mach := m } ∧
      Status.ERROR_PARAM_OUT_OF_RANGE.kind = some ErrorKind.OutOfRange :=
  ⟨rfl, rfl, rfl⟩

/-! ## Failure of the fresh allocation, and the block invariant -/

/-- What `Free` leaves of a block that satisfies the invariant: a free block with size 0. -/
theorem Free_item_free (self : MemoryItem) (m : Machine) (hinv : self.Invariant) :
    (MemoryItem.Free self m).item.m_pData = none ∧ (MemoryItem.Free self m).item.m_lSize = 0 := by
  unfold MemoryItem.Free
  cases hp : self.m_pData with
  | none =>
    have := hinv (by simp [MemoryItem.IsFree, hp])
    exact ⟨hp, this⟩
  | some p => exact ⟨rfl, rfl⟩

/-- The three ways a fresh allocation with a size above 0 can end: `cudaMalloc`
failed and the block is as `Free` left it; `cudaMemset` failed and the block is as
`Free` left it, with a null pointer; or the block holds the new region, and then
the status is success when there is no source buffer. -/
theorem Allocate_item (rt : Runtime) (self : MemoryItem) (m : Machine) (nDeviceID : Int)
    (bHalf : Bool) (lSize : Nat) (pSrc pStream : Option Nat) (h0 : lSize ≠ 0) :
    ((MemoryItem.Allocate rt self m nDeviceID bHalf lSize pSrc pStream).item
          = (MemoryItem.Free self m).item ∧
        (MemoryItem.Allocate rt self m nDeviceID bHalf lSize pSrc pStream).status
          ≠ Status.success) ∨
      ((MemoryItem.Allocate rt self m nDeviceID bHalf lSize pSrc pStream).item
          = { (MemoryItem.Free self m).item with m_pData := none } ∧
        (MemoryItem.Allocate rt self m nDeviceID bHalf lSize pSrc pStream).status
          ≠ Status.success) ∨
      ∃ p, (MemoryItem.Allocate rt self m nDeviceID bHalf lSize pSrc pStream).item
          = { m_pData := some p, m_lSize := lSize, m_nDeviceID := nDeviceID, m_bOwner := true,
              m_bHalf := bHalf } ∧
        (pSrc = none →
          (MemoryItem.Allocate rt self m nDeviceID bHalf lSize pSrc pStream).status
            = Status.success) := by
  unfold MemoryItem.Allocate
  simp only [h0, if_false]
  unfold cudaMalloc
  by_cases e0 : rt.err (MemoryItem.Free self m).mach.calls.length = 0
  · simp only [e0, if_true]
    by_cases e1 : (cudaMemset rt { (MemoryItem.Free self m).mach with
        calls := (MemoryItem.Free self m).mach.calls ++ [CudaCall.malloc lSize] }
        (rt.ptr (MemoryItem.Free self m).mach.calls.length) 0 lSize).1 = 0
    · simp only [e1, ne_eq, not_true_eq_false, if_false]
      right
      right
      refine ⟨rt.ptr (MemoryItem.Free self m).mach.calls.length, ?_, ?_⟩
      · cases pSrc with
        | none => rfl
        | some src => cases pStream <;> rfl
      · intro h
        subst h
        rfl
    · simp only [e1, ne_eq, not_false_eq_true, if_true]
      right
      left
      refine ⟨trivial, ?_⟩
      simp only [Status.success, Status.cuda.injEq]
      exact e1
  · simp only [e0, if_false]
    left
    refine ⟨trivial, ?_⟩
    simp only [Status.success, ne_eq, Status.cuda.injEq]
    exact e0

/-- The fresh allocation, on a block that satisfies the invariant, leaves a block
that satisfies it. -/
theorem Allocate_invariant (rt : Runtime) (self : MemoryItem) (m : Machine) (nDeviceID : Int)
    (bHalf : Bool) (lSize : Nat) (pSrc pStream : Option Nat) (hinv : self.Invariant) :
    (MemoryItem.Allocate rt self m nDeviceID bHalf lSize pSrc pStream).item.Invariant := by
  have hf := Free_item_free self m hinv
  by_cases h0 : lSize = 0
  · subst h0
    exact hinv
  · rcases Allocate_item rt self m nDeviceID bHalf lSize pSrc pStream h0 with
      ⟨h, _⟩ | ⟨h, _⟩ | ⟨p, h, _⟩
    · rw [h]
      intro _
      exact hf.2
    · rw [h]
      intro _
      exact hf.2
    · rw [h]
      intro hfree
      simp [MemoryItem.IsFree] at hfree

/-- Without a source buffer, a fresh allocation that fails on a block that
satisfies the invariant leaves the block free with size 0. -/
theorem Allocate_failure_without_source (rt : Runtime) (self : MemoryItem) (m : Machine)
    (nDeviceID : Int) (bHalf : Bool) (lSize : Nat) (pStream : Option Nat)
    (hinv : self.Invariant) (hpos : 0 < lSize)
    (hfail : (MemoryItem.Allocate rt self m nDeviceID bHalf lSize none pStream).status
      ≠ Status.success) :
    (MemoryItem.Allocate rt self m nDeviceID bHalf lSize none pStream).item.IsFree = true ∧
      (MemoryItem.Allocate rt self m nDeviceID bHalf lSize none pStream).item.Size = 0 := by
  have hf := Free_item_free self m hinv
  have h0 : lSize ≠ 0 := by omega
  rcases Allocate_item rt self m nDeviceID bHalf lSize none pStream h0 with
    ⟨h, _⟩ | ⟨h, _⟩ | ⟨p, _, h⟩
  · rw [h]
    exact ⟨by simp [MemoryItem.IsFree, hf.1], hf.2⟩
  · rw [h]
    exact ⟨by simp [MemoryItem.IsFree], hf.2⟩
  · exact absurd (h rfl) hfail

/-- C13, evaluated at the failing input: a fresh `Allocate` of 4 bytes from a host
buffer, on a newly constructed block, with a runtime whose `cudaMalloc` and
`cudaMemset` succeed and whose copy from the source fails with status 700.
`Allocate` returns 700 and the block is not free: it keeps the pointer to the new
region and reports size 4; no `cudaFree` was issued. -/
theorem C13_copy_failure_not_rolled_back :
    (MemoryItem.Allocate copyFailRuntime MemoryItem.construct mach0 0 false 4 (some 50) none).status
      = Status.cuda 700 ∧
    Status.cuda 700 ≠ Status.success ∧
    (MemoryItem.Allocate copyFailRuntime MemoryItem.construct mach0 0 false 4 (some 50)
      none).item.IsFree = false ∧
    (MemoryItem.Allocate copyFailRuntime MemoryItem.construct mach0 0 false 4 (some 50)
      none).item.Size = 4 ∧
    (MemoryItem.Allocate copyFailRuntime MemoryItem.construct mach0 0 false 4 (some 50)
      none).item.Data = some 4096 ∧
    (MemoryItem.Allocate copyFailRuntime MemoryItem.construct mach0 0 false 4 (some 50)
      none).mach.calls
      = [CudaCall.malloc 4, CudaCall.memset 4096 0 4, CudaCall.memcpyHostToDevice 4096 50 4] := by
  decide

/-- The operations that preserve the block invariant: the constructor establishes
it, and the fresh `Allocate`, the aliasing `Allocate` with a non-null pointer,
`GetData`, `GetDataAt`, both `SetData`, `SetDataAt` and `Copy` keep it. -/
theorem Invariant_preserved (rt : Runtime) (self : MemoryItem) (m : Machine) (nDeviceID : Int)
    (bHalf : Bool) (lSize nOffsetInBytes pData pOther : Nat) (p pStream : Option Nat)
    (nVal : Int) (other : MemoryItem) (hinv : self.Invariant) :
    MemoryItem.construct.Invariant ∧
      (MemoryItem.Allocate rt self m nDeviceID bHalf lSize p pStream).item.Invariant ∧
      (MemoryItem.AllocateAlias self m nDeviceID bHalf (some pData) lSize).item.Invariant ∧
      (MemoryItem.GetData rt self m lSize p).item.Invariant ∧
      (MemoryItem.GetDataAt rt self m lSize p nOffsetInBytes).item.Invariant ∧
      (MemoryItem.SetData rt self m lSize p pStream).item.Invariant ∧
      (MemoryItem.SetDataAt rt self m lSize p nOffsetInBytes).item.Invariant ∧
      (MemoryItem.SetDataVal rt self m nVal).item.Invariant ∧
      (MemoryItem.Copy rt self m lSize pOther other).item.Invariant := by
  have hGet : (MemoryItem.GetData rt self m lSize p).item = self := by
    unfold MemoryItem.GetData
    repeat' split
    all_goals rfl
  have hGetAt : (MemoryItem.GetDataAt rt self m lSize p nOffsetInBytes).item = self := by
    unfold MemoryItem.GetDataAt
    dsimp only
    repeat' split
    all_goals rfl
  have hSet : ∀ q n, (MemoryItem.SetData rt self m n q pStream).item = self := by
    intro q n
    unfold MemoryItem.SetData
    dsimp only
    repeat' split
    all_goals rfl
  have hSet2 : ∀ q n, (MemoryItem.SetData rt self m n q none).item = self := by
    intro q n
    unfold MemoryItem.SetData
    dsimp only
    repeat' split
    all_goals rfl
  have hSetAt : (MemoryItem.SetDataAt rt self m lSize p nOffsetInBytes).item = self := by
    unfold MemoryItem.SetDataAt
    dsimp only
    repeat' split
    all_goals rfl
  have hVal : (MemoryItem.SetDataVal rt self m nVal).item = self := by
    unfold MemoryItem.SetDataVal
    dsimp only
    repeat' split
    all_goals rfl
  have hCopy : (MemoryItem.Copy rt self m lSize pOther other).item = self := by
    unfold MemoryItem.Copy
    split
    · rfl
    · exact hSet2 _ _
  refine ⟨by decide, Allocate_invariant rt self m nDeviceID bHalf lSize p pStream hinv, ?_,
    by rw [hGet]; exact hinv, by rw [hGetAt]; exact hinv, by rw [hSet p lSize]; exact hinv,
    by rw [hSetAt]; exact hinv, by rw [hVal]; exact hinv, by rw [hCopy]; exact hinv⟩
  unfold MemoryItem.AllocateAlias
  split
  · exact hinv
  · intro h
    simp [MemoryItem.IsFree] at h

/-- C14, evaluated at the failing input: the aliasing `Allocate` called on a newly
constructed block, which satisfies the invariant, with `pData = NULL` and
`lSize = 4` returns success and leaves a block that is free (`IsFree()`) with
`Size() = 4`: the invariant is broken. -/
theorem C14_alias_of_null_breaks_invariant :
    MemoryItem.construct.Invariant ∧
    (MemoryItem.AllocateAlias MemoryItem.construct mach0 0 false none 4).status = Status.success ∧
    (MemoryItem.AllocateAlias MemoryItem.construct mach0 0 false none 4).item.IsFree = true ∧
    (MemoryItem.AllocateAlias MemoryItem.construct mach0 0 false none 4).item.Size = 4 ∧
    ¬ (MemoryItem.AllocateAlias MemoryItem.construct mach0 0 false none 4).item.Invariant := by
  decide

/-! ## `MemoryItem::Copy` -/

/-- Method `Copy` with a size above the capacity of the source block returns
`ERROR_PARAM_OUT_OF_RANGE` and changes nothing; otherwise it is `SetData` with the
address of the source object as the host source. -/
theorem Copy_eq (rt : Runtime) (self : MemoryItem) (m : Machine) (lSize pSrc : Nat)
    (src : MemoryItem) :
    (src.Size < lSize →
      MemoryItem.Copy rt self m lSize pSrc src
        = { status := Status.ERROR_PARAM_OUT_OF_RANGE, item := self, mach := m }) ∧
    (lSize ≤ src.Size →
      MemoryItem.Copy rt self m lSize pSrc src
        = MemoryItem.SetData rt self m lSize (some pSrc) none) := by
  unfold MemoryItem.Copy
  constructor
  · intro h
    simp [h]
  · intro h
    have : ¬ lSize > src.Size := by omega
    simp [this]

/-- C15, evaluated at the failing input: this block has 16 bytes at device address
1000, the other block is the object at host address 200 and owns 8 bytes at
device address 2000, which hold 9s; `Copy(4, other)`.  The one copy issued is a
host-to-device copy whose source is the host address 200 of the object, not the
region at 2000, and the first 4 bytes of this block become the host bytes 4, 5,
6, 0 found at address 200, not the 9s of the other block's region. -/
theorem C15_copy_reads_the_object_not_its_region :
    blk8.Data = some 2000 ∧ region mach0.dev 2000 4 = [9, 9, 9, 9] ∧
    (MemoryItem.Copy okRuntime blk16 mach0 4 200 blk8).status = Status.success ∧
    (MemoryItem.Copy okRuntime blk16 mach0 4 200 blk8).mach.calls
      = [CudaCall.memset 1000 0 16, CudaCall.memcpyHostToDevice 1000 200 4] ∧
    region (MemoryItem.Copy okRuntime blk16 mach0 4 200 blk8).mach.dev 1000 4 = [4, 5, 6, 0] ∧
    region mach0.host 200 4 = [4, 5, 6, 0] := by
  decide

/-! ## `MemoryCollection::GetCount(size_t)` and `GetSize` -/

/-- C16, counterexample: `SIZE_MAX` is odd and `GetCount(SIZE_MAX)` is 0, which is
below `SIZE_MAX`: the increment wraps around in `size_t`. -/
theorem C16_GetCount_wraps_at_SIZE_MAX :
    SIZE_MAX % 2 = 1 ∧ MemoryCollection.GetCountOf SIZE_MAX = 0 ∧
      ¬ SIZE_MAX ≤ MemoryCollection.GetCountOf SIZE_MAX := by
  decide

/-- C16, as amended: for every count of the size type below `SIZE_MAX`,
`GetCount(count)` is the smallest even number that is at least `count`, which is
`count` when `count` is even and `count + 1` when it is odd; `GetCount(3) = 4`;
and `GetCount(SIZE_MAX) = 0`. -/
theorem C16_GetCount_rounds_up_to_even (lCount : Nat) (h : lCount < SIZE_MAX) :
    MemoryCollection.GetCountOf lCount % 2 = 0 ∧
      lCount ≤ MemoryCollection.GetCountOf lCount ∧
      (∀ e, e % 2 = 0 → lCount ≤ e → MemoryCollection.GetCountOf lCount ≤ e) ∧
      (lCount % 2 = 0 → MemoryCollection.GetCountOf lCount = lCount) ∧
      (lCount % 2 = 1 → MemoryCollection.GetCountOf lCount = lCount + 1) ∧
      MemoryCollection.GetCountOf 3 = 4 ∧
      MemoryCollection.GetCountOf SIZE_MAX = 0 := by
  unfold SIZE_MAX at h
  have hodd : lCount % 2 = 1 → MemoryCollection.GetCountOf lCount = lCount + 1 := by
    intro ho
    unfold MemoryCollection.GetCountOf
    rw [if_pos (by omega)]
    omega
  have heven : lCount % 2 = 0 → MemoryCollection.GetCountOf lCount = lCount := by
    intro he
    unfold MemoryCollection.GetCountOf
    rw [if_neg (by omega)]
  refine ⟨?_, ?_, ?_, heven, hodd, by decide, by decide⟩
  · rcases Nat.mod_two_eq_zero_or_one lCount with he | ho
    · rw [heven he]; exact he
    · rw [hodd ho]; omega
  · rcases Nat.mod_two_eq_zero_or_one lCount with he | ho
    · rw [heven he]
    · rw [hodd ho]; omega
  · intro e he hle
    rcases Nat.mod_two_eq_zero_or_one lCount with hev | ho
    · rw [heven hev]; exact hle
    · rw [hodd ho]; omega

/-- Witness of C16: the count 7. -/
theorem C16_GetCount_rounds_up_to_even_witness :
    7 < SIZE_MAX ∧ MemoryCollection.GetCountOf 7 % 2 = 0 ∧ 7 ≤ MemoryCollection.GetCountOf 7 :=
  ⟨by decide, (C16_GetCount_rounds_up_to_even 7 (by decide)).1,
    (C16_GetCount_rounds_up_to_even 7 (by decide)).2.1⟩

/-- A value in the range of `long long` survives the reduction to its low 64 bits. -/
theorem toLongLong_toSizeT (x : Int) (h1 : -2 ^ 63 ≤ x) (h2 : x < 2 ^ 63) :
    toLongLong (toSizeT x) = x := by
  unfold toLongLong toSizeT
  split <;> omega

/-- C17, counterexample: for the count `2 ^ 63`, which is even, and the element
size 1, the exact product of the rounded count and the element size is `2 ^ 63`
and `GetSize` returns `-2 ^ 63`. -/
theorem C17_GetSize_is_not_the_product :
    MemoryCollection.GetCountOf (2 ^ 63) = 2 ^ 63 ∧
      MemoryCollection.GetSize (2 ^ 63) 1 = -2 ^ 63 ∧
      ((MemoryCollection.GetCountOf (2 ^ 63) : Nat) : Int) * 1 = 2 ^ 63 ∧
      MemoryCollection.GetSize (2 ^ 63) 1
        ≠ ((MemoryCollection.GetCountOf (2 ^ 63) : Nat) : Int) * 1 := by
  decide

/-- C17, as amended: for every count and element size for which the count rounded up
to even is below `2 ^ 63` and its exact product with the element size is in the
range of `long long`, `GetSize(count, elementSize)` is that exact product; the
rounded count is what `GetCount` returns; and `GetSize(3, 4) = 16`. -/
theorem C17_GetSize_exact_in_range (lCount : Nat) (nBaseSize : Int)
    (hc : lCount + lCount % 2 < 2 ^ 63)
    (hlo : -2 ^ 63 ≤ ((lCount + lCount % 2 : Nat) : Int) * nBaseSize)
    (hhi : ((lCount + lCount % 2 : Nat) : Int) * nBaseSize < 2 ^ 63) :
    MemoryCollection.GetSize lCount nBaseSize
        = ((lCount + lCount % 2 : Nat) : Int) * nBaseSize ∧
      MemoryCollection.GetCountOf lCount = lCount + lCount % 2 ∧
      MemoryCollection.GetSize 3 4 = 16 := by
  have hcount : MemoryCollection.GetCountOf lCount = lCount + lCount % 2 := by
    unfold MemoryCollection.GetCountOf
    split <;> omega
  have hll : toLongLong (lCount + lCount % 2) = ((lCount + lCount % 2 : Nat) : Int) := by
    unfold toLongLong
    split <;> omega
  refine ⟨?_, hcount, by decide⟩
  unfold MemoryCollection.GetSize
  simp only [hcount, hll]
  exact toLongLong_toSizeT _ hlo hhi

/-- Witness of C17: 5 elements of 4 bytes. -/
theorem C17_GetSize_exact_in_range_witness :
    5 + 5 % 2 < 2 ^ 63 ∧ MemoryCollection.GetSize 5 4 = ((5 + 5 % 2 : Nat) : Int) * 4 :=
  ⟨by decide, (C17_GetSize_exact_in_range 5 4 (by decide) (by decide) (by decide)).1⟩

/-! ## `MemoryCollection::GetData`: one hop at most -/

/-- A handle from 1 to `MAX_ITEMS` is answered without any call to a peer. -/
theorem GetDataTraced_local (heap : Heap) (self : Nat) (hHandle : Int)
    (ppItem : Option (Option ItemPtr)) (h2 : hHandle ≤ MAX_ITEMS) :
    (MemoryCollection.GetDataTraced heap self hHandle ppItem).2 = 0 := by
  have hg : ¬ hHandle > MAX_ITEMS := by omega
  rw [MemoryCollection.GetDataTraced.eq_def]
  split
  · rfl
  · cases ppItem with
    | none => rfl
    | some v => simp only [hg, if_false]

/-- The traced method returns what `GetData` returns. -/
theorem GetDataTraced_result (heap : Heap) (self : Nat) (hHandle : Int)
    (ppItem : Option (Option ItemPtr)) :
    (MemoryCollection.GetDataTraced heap self hHandle ppItem).1
      = MemoryCollection.GetData heap self hHandle ppItem := by
  by_cases hr : hHandle < 1 ∨ hHandle ≥ MAX_ITEMS * 2
  · rw [MemoryCollection.GetDataTraced.eq_def, MemoryCollection.GetData.eq_def, if_pos hr,
      if_pos hr]
  · have hr2 : ¬ (hHandle - MAX_ITEMS < 1 ∨ hHandle - MAX_ITEMS ≥ MAX_ITEMS * 2) ∨
        ¬ hHandle > MAX_ITEMS := by
      simp only [MAX_ITEMS] at *; omega
    have hloc : ¬ hHandle - MAX_ITEMS > MAX_ITEMS := by
      simp only [MAX_ITEMS] at *; omega
    cases ppItem with
    | none =>
      rw [MemoryCollection.GetDataTraced.eq_def, MemoryCollection.GetData.eq_def, if_neg hr,
        if_neg hr]
    | some v =>
      rw [MemoryCollection.GetDataTraced.eq_def, MemoryCollection.GetData.eq_def, if_neg hr,
        if_neg hr]
      by_cases hg : hHandle > MAX_ITEMS
      · simp only [hg, if_true]
        cases hpeer : (heap self).m_pMemPtrs with
        | none => rfl
        | some peer =>
          have hr3 : ¬ (hHandle - MAX_ITEMS < 1 ∨ hHandle - MAX_ITEMS ≥ MAX_ITEMS * 2) := by
            simp only [MAX_ITEMS] at *; omega
          have e1 : MemoryCollection.GetDataTraced heap peer (hHandle - MAX_ITEMS) (some v)
              = ((Status.success,
                  some (some { table := peer, index := hHandle - MAX_ITEMS })), 0) := by
            rw [MemoryCollection.GetDataTraced.eq_def, if_neg hr3]
            simp only [hloc, if_false]
          have e2 := GetData_local heap peer (hHandle - MAX_ITEMS) v (by omega) (by omega)
          simp only [e1, e2, ne_eq, not_true_eq_false, if_false]
      · simp only [hg, if_false]

/-- C18: for every heap of tables (every peer configuration, a table that is its own
peer and cycles of peers included), every table, every handle and every `ppItem`,
`GetData` returns, and it makes at most one call to a peer on the way.  When it
makes that call (the handle is above `MAX_ITEMS` and below `MAX_ITEMS * 2`), the
handle it passes is at least 1 and below `MAX_ITEMS`, and the peer answers it from
its own slots without a further call, whatever the peer's own peer. -/
theorem C18_GetData_at_most_one_hop (heap : Heap) (self : Nat) (hHandle : Int)
    (ppItem : Option (Option ItemPtr)) :
    (MemoryCollection.GetDataTraced heap self hHandle ppItem).1
        = MemoryCollection.GetData heap self hHandle ppItem ∧
      (MemoryCollection.GetDataTraced heap self hHandle ppItem).2 ≤ 1 ∧
      (MAX_ITEMS < hHandle ∧ hHandle < MAX_ITEMS * 2 →
        1 ≤ hHandle - MAX_ITEMS ∧ hHandle - MAX_ITEMS < MAX_ITEMS ∧
          ∀ peer v,
            (MemoryCollection.GetDataTraced heap peer (hHandle - MAX_ITEMS) ppItem).2 = 0 ∧
              MemoryCollection.GetData heap peer (hHandle - MAX_ITEMS) (some v)
                = (Status.success,
                    some (some { table := peer, index := hHandle - MAX_ITEMS }))) := by
  refine ⟨GetDataTraced_result heap self hHandle ppItem, ?_, ?_⟩
  · by_cases hg : hHandle > MAX_ITEMS
    · rw [MemoryCollection.GetDataTraced.eq_def]
      split
      · exact Nat.zero_le _
      · rename_i hr
        have hle : hHandle - MAX_ITEMS ≤ MAX_ITEMS := by
          simp only [MAX_ITEMS] at *; omega
        cases ppItem with
        | none => exact Nat.zero_le _
        | some v =>
          simp only [hg, if_true]
          cases hpeer : (heap self).m_pMemPtrs with
          | none => exact Nat.zero_le _
          | some peer =>
            have h0 := GetDataTraced_local heap peer (hHandle - MAX_ITEMS) (some v) hle
            simp only []
            split <;> simp [h0]
    · rw [GetDataTraced_local heap self hHandle ppItem (by omega)]
      exact Nat.zero_le _
  · intro ⟨h1, h2⟩
    have ha : 1 ≤ hHandle - MAX_ITEMS := by omega
    have hb : hHandle - MAX_ITEMS < MAX_ITEMS := by simp only [MAX_ITEMS] at *; omega
    refine ⟨ha, hb, ?_⟩
    intro peer v
    exact ⟨GetDataTraced_local heap peer _ ppItem (le_of_lt hb),
      GetData_local heap peer _ v ha (le_of_lt hb)⟩

/-! ## Failures from the checks change nothing; the overflow status is never returned -/

/-- C19: when a method of `MemoryItem` returns one of the `ERROR_` constants, the
statuses of its own argument and bounds checks (either `Allocate` with size 0;
`GetData`, `GetDataAt`, `SetData`, `SetDataAt` with a null buffer, a free block,
size 0 or a size refused as beyond the capacity; the fill on a free block; `Copy`
with a size beyond the capacity of the source), every field of the block, device
memory, host memory and the record of runtime calls are as before the call. -/
theorem C19_check_failures_change_nothing (rt : Runtime) (self : MemoryItem) (m : Machine)
    (nDeviceID : Int) (bHalf : Bool) (lSize nOffsetInBytes pOther : Nat)
    (p pStream pData : Option Nat) (nVal : Int) (other : MemoryItem) :
    ((MemoryItem.Allocate rt self m nDeviceID bHalf lSize p pStream).status.isCheckFailure = true →
        (MemoryItem.Allocate rt self m nDeviceID bHalf lSize p pStream).item = self ∧
        (MemoryItem.Allocate rt self m nDeviceID bHalf lSize p pStream).mach = m) ∧
      ((MemoryItem.AllocateAlias self m nDeviceID bHalf pData lSize).status.isCheckFailure = true →
        (MemoryItem.AllocateAlias self m nDeviceID bHalf pData lSize).item = self ∧
        (MemoryItem.AllocateAlias self m nDeviceID bHalf pData lSize).mach = m) ∧
      ((MemoryItem.GetData rt self m lSize p).status.isCheckFailure = true →
        (MemoryItem.GetData rt self m lSize p).item = self ∧
        (MemoryItem.GetData rt self m lSize p).mach = m) ∧
      ((MemoryItem.GetDataAt rt self m lSize p nOffsetInBytes).status.isCheckFailure = true →
        (MemoryItem.GetDataAt rt self m lSize p nOffsetInBytes).item = self ∧
        (MemoryItem.GetDataAt rt self m lSize p nOffsetInBytes).mach = m) ∧
      ((MemoryItem.SetData rt self m lSize p pStream).status.isCheckFailure = true →
        (MemoryItem.SetData rt self m lSize p pStream).item = self ∧
        (MemoryItem.SetData rt self m lSize p pStream).mach = m) ∧
      ((MemoryItem.SetDataAt rt self m lSize p nOffsetInBytes).status.isCheckFailure = true →
        (MemoryItem.SetDataAt rt self m lSize p nOffsetInBytes).item = self ∧
        (MemoryItem.SetDataAt rt self m lSize p nOffsetInBytes).mach = m) ∧
      ((MemoryItem.SetDataVal rt self m nVal).status.isCheckFailure = true →
        (MemoryItem.SetDataVal rt self m nVal).item = self ∧
        (MemoryItem.SetDataVal rt self m nVal).mach = m) ∧
      ((MemoryItem.Copy rt self m lSize pOther other).status.isCheckFailure = true →
        (MemoryItem.Copy rt self m lSize pOther other).item = self ∧
        (MemoryItem.Copy rt self m lSize pOther other).mach = m) := by
  have hSet : ∀ q s n, (MemoryItem.SetData rt self m n q s).status.isCheckFailure = true →
      (MemoryItem.SetData rt self m n q s).item = self ∧
      (MemoryItem.SetData rt self m n q s).mach = m := by
    intro q s n
    unfold MemoryItem.SetData
    dsimp only
    repeat' split
    all_goals first
      | (intro _; exact ⟨rfl, rfl⟩)
      | (intro h; simp [Status.isCheckFailure] at h)
  refine ⟨?_, ?_, ?_, ?_, hSet p pStream lSize, ?_, ?_, ?_⟩
  · by_cases h0 : lSize = 0
    · subst h0
      intro _
      exact ⟨rfl, rfl⟩
    · intro h
      exfalso
      revert h
      unfold MemoryItem.Allocate
      simp only [h0, if_false]
      unfold cudaMalloc
      dsimp only
      repeat' split
      all_goals simp_all [Status.isCheckFailure, Status.success]
  · unfold MemoryItem.AllocateAlias
    split
    · intro _; exact ⟨rfl, rfl⟩
    · intro h; simp [Status.isCheckFailure, Status.success] at h
  · unfold MemoryItem.GetData
    dsimp only
    repeat' split
    all_goals first
      | (intro _; exact ⟨rfl, rfl⟩)
      | (intro h; simp [Status.isCheckFailure] at h)
  · unfold MemoryItem.GetDataAt
    dsimp only
    repeat' split
    all_goals first
      | (intro _; exact ⟨rfl, rfl⟩)
      | (intro h; simp [Status.isCheckFailure] at h)
  · unfold MemoryItem.SetDataAt
    dsimp only
    repeat' split
    all_goals first
      | (intro _; exact ⟨rfl, rfl⟩)
      | (intro h; simp [Status.isCheckFailure] at h)
  · unfold MemoryItem.SetDataVal
    dsimp only
    repeat' split
    all_goals first
      | (intro _; exact ⟨rfl, rfl⟩)
      | (intro h; simp [Status.isCheckFailure, Status.success] at h)
  · unfold MemoryItem.Copy
    split
    · intro _; exact ⟨rfl, rfl⟩
    · exact hSet _ _ _

/-- Witness of C19: `SetDataAt` of 4 bytes at offset 14 of a block of 16 bytes is
refused by its bounds check. -/
theorem C19_check_failures_change_nothing_witness :
    (MemoryItem.SetDataAt okRuntime blk16 mach0 4 (some 50) 14).status.isCheckFailure = true ∧
      (MemoryItem.SetDataAt okRuntime blk16 mach0 4 (some 50) 14).item = blk16 ∧
      (MemoryItem.SetDataAt okRuntime blk16 mach0 4 (some 50) 14).mach.calls = [] :=
  ⟨by decide,
    ((C19_check_failures_change_nothing okRuntime blk16 mach0 0 false 4 14 200 (some 50) none
      none 0 blk8).2.2.2.2.2.1 (by decide)).1,
    by
      rw [((C19_check_failures_change_nothing okRuntime blk16 mach0 0 false 4 14 200 (some 50) none
        none 0 blk8).2.2.2.2.2.1 (by decide)).2]
      rfl⟩

/-- C20: for every block, machine, size, buffer and offset, neither `GetDataAt` nor
`SetDataAt` returns `ERROR_MEMORY_RANGE_EXCEEDED`: the sum of size and offset is
reduced modulo `2 ^ 64` before it is stored in `lSize1`, no value converted to
`size_t` is above `SIZE_MAX`, and no other statement returns that status. -/
theorem C20_range_exceeded_unreachable (rt : Runtime) (self : MemoryItem) (m : Machine)
    (lSize nOffsetInBytes : Nat) (p : Option Nat) :
    (MemoryItem.GetDataAt rt self m lSize p nOffsetInBytes).status
        ≠ Status.ERROR_MEMORY_RANGE_EXCEEDED ∧
      (MemoryItem.SetDataAt rt self m lSize p nOffsetInBytes).status
        ≠ Status.ERROR_MEMORY_RANGE_EXCEEDED ∧
      ¬ toSizeT (toLongLong ((lSize + nOffsetInBytes) % 2 ^ 64)) > SIZE_MAX := by
  have hnever := toSizeT_le_SIZE_MAX (toLongLong ((lSize + nOffsetInBytes) % 2 ^ 64))
  refine ⟨?_, ?_, hnever⟩
  · unfold MemoryItem.GetDataAt
    simp only [hnever, if_false]
    repeat' split
    all_goals simp
  · unfold MemoryItem.SetDataAt
    simp only [hnever, if_false]
    repeat' split
    all_goals simp

end MyCaffe
